import Mathlib

/-!
Verification of the flight-route visualization map and the cross-tab AI chat
widget of this repository.

The flight map lives in two variants inside
`src/frontend/docs/components/Timeline.vue` (they are separate single-file
components concatenated into that file):
  * variant 1 (the curved-path map): `createCurvedPath`, `routes`,
    `airports`, `zoomLevels`, `mapBounds`;
  * variant 2 (the straight-line map, namespace `FlightMapPins` below):
    its own `routes` aggregation with `thickness`/`opacity` updates.

The chat widget lives in `src/unnamed/part_002` (and, nearly identically, in
`src/frontend/docs/components/MiniChat.vue`): `sendMessage` with its
incremental newline-delimited stream parser, `handleStorageChange`,
`isWittyMessage` and `saveMessagesToStorage`.

Modelling conventions:
  * JavaScript numbers are modelled as exact rationals (`ℚ`).  `Math.sqrt`,
    the single irrational operation used by the code, is abstracted as an
    explicit function parameter `sqrtQ : ℚ → ℚ` threaded through the curve
    computation; theorems that need a fact about it (nonnegativity) take
    that fact as a hypothesis.
  * A JavaScript `Map` (insertion ordered, unique keys) is modelled as an
    association list together with `mapGet` (first match) and `mapSet`
    (replace in place if present, append otherwise); a JavaScript `Set` of
    strings is a list with membership-guarded append.
  * `JSON.parse` of a streamed line together with the
    `parsed.choices[0]?.delta` projection is abstracted as a parameter
    `parseDelta : String → Option String` (`none` models both a parse error
    and a record without a delta); the code's JavaScript truthiness test on
    `delta?.content` makes an empty-string delta behave exactly like `none`,
    which the model reproduces.
-/

/-- One raw flight record (interface `FlightData` in Timeline.vue). -/
structure FlightData where
  date : String
  time : String
  origin : String
  destination : String
  flightNumber : String
  departureDateTime : String
  arrivalDateTime : String
  airline : String
  deriving DecidableEq

/-- One entry of the static airport reference table
(`Omit<Airport, "flightCount" | "displayCode">` in Timeline.vue). -/
structure AirportData where
  code : String
  lat : ℚ
  lng : ℚ
  name : String
  city : String
  country : String
  deriving DecidableEq

/-- JavaScript `Map.prototype.get`, first (unique) matching key. -/
def mapGet {α : Type} (m : List (String × α)) (k : String) : Option α :=
  (m.find? (fun e => e.1 = k)).map (fun e => e.2)

/-- JavaScript `Map.prototype.set`: update in place when the key exists,
append in insertion order otherwise. -/
def mapSet {α : Type} (m : List (String × α)) (k : String) (v : α) : List (String × α) :=
  if m.any (fun e => e.1 = k) then m.map (fun e => if e.1 = k then (k, v) else e)
  else m ++ [(k, v)]

/-- Shared body of the `routes` computed property of both flight-map
variants (Timeline.vue lines 554-592 and lines 2020-2062): skip the flight
when either endpoint is missing from the airport table, otherwise merge it
into the route found under the forward or the reverse key
(`existingRoute.count++; existingRoute.flights.push(flight)` plus the
variant-specific field updates bundled in `upd`), or create a fresh route
(`mkNew`) under the forward key.  The two variants differ only in the
airport table behind `valid`, in `mkNew` and in `upd`. -/
def aggStep {R : Type} (valid : String → Bool) (mkNew : FlightData → R)
    (upd : R → FlightData → R)
    (routeMap : List (String × R)) (flight : FlightData) : List (String × R) :=
  if valid flight.origin && valid flight.destination then
    let routeKey := flight.origin ++ "-" ++ flight.destination
    let reverseKey := flight.destination ++ "-" ++ flight.origin
    match mapGet routeMap routeKey with
    | some existingRoute => mapSet routeMap routeKey (upd existingRoute flight)
    | none =>
      match mapGet routeMap reverseKey with
      | some existingRoute => mapSet routeMap reverseKey (upd existingRoute flight)
      | none => mapSet routeMap routeKey (mkNew flight)
  else routeMap

/-- The `props.flights.forEach` aggregation loop over an initially empty
route map. -/
def aggregate {R : Type} (valid : String → Bool) (mkNew : FlightData → R)
    (upd : R → FlightData → R) (flights : List FlightData) : List (String × R) :=
  flights.foldl (aggStep valid mkNew upd) []

namespace FlightMap

/-- The `AIRPORT_COORDINATES` table of flight-map variant 1
(Timeline.vue lines 179-404), in source order. -/
def AIRPORT_LIST : List (String × AirportData) :=
  [("SIN", ⟨"SIN", 1.3644, 103.9915, "Singapore Changi Airport", "Singapore", "Singapore"⟩),
   ("CGK", ⟨"CGK", -6.1256, 106.6559, "Soekarno-Hatta International Airport", "Jakarta", "Indonesia"⟩),
   ("BOS", ⟨"BOS", 42.3656, -71.0096, "Logan International Airport", "Boston", "USA"⟩),
   ("SFO", ⟨"SFO", 37.6213, -122.379, "San Francisco International Airport", "San Francisco", "USA"⟩),
   ("DXB", ⟨"DXB", 25.2532, 55.3657, "Dubai International Airport", "Dubai", "UAE"⟩),
   ("HKG", ⟨"HKG", 22.308, 113.9185, "Hong Kong International Airport", "Hong Kong", "Hong Kong"⟩),
   ("IST", ⟨"IST", 41.2619, 28.7411, "Istanbul Airport", "Istanbul", "Turkey"⟩),
   ("NCE", ⟨"NCE", 43.6584, 7.2159, "Nice Côte d\x27Azur Airport", "Nice", "France"⟩),
   ("LAX", ⟨"LAX", 33.9425, -118.4081, "Los Angeles International Airport", "Los Angeles", "USA"⟩),
   ("BLR", ⟨"BLR", 12.9491, 77.6678, "Kempegowda International Airport", "Bangalore", "India"⟩),
   ("MAA", ⟨"MAA", 12.9941, 80.1709, "Chennai International Airport", "Chennai", "India"⟩),
   ("KNO", ⟨"KNO", 3.6422, 98.8853, "Kualanamu International Airport", "Medan", "Indonesia"⟩),
   ("BKK", ⟨"BKK", 13.69, 100.7501, "Suvarnabhumi Airport", "Bangkok", "Thailand"⟩),
   ("PEN", ⟨"PEN", 5.2971, 100.2777, "Penang International Airport", "Penang", "Malaysia"⟩),
   ("ICN", ⟨"ICN", 37.4602, 126.4407, "Incheon International Airport", "Seoul", "South Korea"⟩),
   ("TPA", ⟨"TPA", 27.9755, -82.5332, "Tampa International Airport", "Tampa", "USA"⟩),
   ("ATL", ⟨"ATL", 33.6407, -84.4277, "Hartsfield-Jackson Atlanta International Airport", "Atlanta", "USA"⟩),
   ("GRU", ⟨"GRU", -23.4356, -46.4731, "São Paulo/Guarulhos International Airport", "São Paulo", "Brazil"⟩),
   ("FCO", ⟨"FCO", 41.8003, 12.2389, "Leonardo da Vinci International Airport", "Rome", "Italy"⟩),
   ("FRA", ⟨"FRA", 50.0379, 8.5622, "Frankfurt Airport", "Frankfurt", "Germany"⟩),
   ("MUC", ⟨"MUC", 48.3537, 11.775, "Munich Airport", "Munich", "Germany"⟩),
   ("CDG", ⟨"CDG", 49.0097, 2.5479, "Charles de Gaulle Airport", "Paris", "France"⟩),
   ("TXL", ⟨"TXL", 52.5597, 13.2877, "Berlin Tegel Airport", "Berlin", "Germany"⟩),
   ("MXP", ⟨"MXP", 45.6306, 8.7281, "Milan Malpensa Airport", "Milan", "Italy"⟩),
   ("AMS", ⟨"AMS", 52.3105, 4.7683, "Amsterdam Airport Schiphol", "Amsterdam", "Netherlands"⟩),
   ("HNL", ⟨"HNL", 21.3099, -157.8581, "Daniel K. Inouye International Airport", "Honolulu", "USA"⟩),
   ("NRT", ⟨"NRT", 35.7647, 140.3864, "Narita International Airport", "Tokyo", "Japan"⟩),
   ("TOY", ⟨"TOY", 36.6483, 137.1875, "Toyama Airport", "Toyama", "Japan"⟩)]

/-- Record access `AIRPORT_COORDINATES[code]` for variant 1. -/
def AIRPORT_COORDINATES (code : String) : Option AirportData :=
  mapGet AIRPORT_LIST code

/-- Truthiness of `AIRPORT_COORDINATES[code]`. -/
def validAirport (code : String) : Bool :=
  (AIRPORT_COORDINATES code).isSome

/-- An aggregated route of variant 1 (interface `Route` in Timeline.vue). -/
structure Route where
  key : String
  «from» : String
  «to» : String
  count : ℕ
  flights : List FlightData
  coordinates : List (ℚ × ℚ)
  opacity : ℚ
  deriving DecidableEq

/-- `eastwardDistance`/`westwardDistance` comparison of `createCurvedPath`
(Timeline.vue lines 475-479): take the long way when the westward span is
strictly shorter. -/
def shouldGoWestward (lng1 lng2 : ℚ) : Bool :=
  360 - |lng2 - lng1| < |lng2 - lng1|

/-- `adjustedLng2` of `createCurvedPath` (Timeline.vue lines 481-492). -/
def adjustLng2 (lng1 lng2 : ℚ) : ℚ :=
  if shouldGoWestward lng1 lng2 then
    if lng2 > lng1 then lng2 - 360 else lng2 + 360
  else lng2

/-- The square of the curve-intensity distance of `createCurvedPath`
(Timeline.vue line 497); the code takes `Math.sqrt` of this value. -/
def curveDistSq («from» «to» : ℚ × ℚ) : ℚ :=
  («to».1 - «from».1) ^ 2 + (adjustLng2 «from».2 «to».2 - «from».2) ^ 2

/-- The quadratic-Bézier control point `(controlLat, controlLng)` of
`createCurvedPath` (Timeline.vue lines 504-531). -/
def controlPoint (sqrtQ : ℚ → ℚ) («from» «to» : ℚ × ℚ) : ℚ × ℚ :=
  let lat1 := «from».1
  let lng1 := «from».2
  let lat2 := «to».1
  let adjustedLng2 := adjustLng2 lng1 «to».2
  let distance := sqrtQ (curveDistSq «from» «to»)
  let midLat := (lat1 + lat2) / 2
  let midLng := (lng1 + adjustedLng2) / 2
  let curveFactor := min (distance * 0.15) 20
  let curveOffset :=
    if |adjustedLng2 - lng1| > |lat2 - lat1| then
      if midLat > 0 then curveFactor else -curveFactor
    else curveFactor * 0.3
  (midLat + (if |adjustedLng2 - lng1| > |lat2 - lat1| then curveOffset else 0),
   midLng + (if |adjustedLng2 - lng1| ≤ |lat2 - lat1| then curveOffset else 0))

/-- `createCurvedPath` (Timeline.vue lines 470-551).  `sqrtQ` stands for
`Math.sqrt`; `segments` is clamped by `Math.max(3, Math.min(..., 8))` and
the sampling loop runs `for (let i = 0; i <= segments; i++)`. -/
def createCurvedPath (sqrtQ : ℚ → ℚ) («from» «to» : ℚ × ℚ) : List (ℚ × ℚ) :=
  let adjustedLng2 := adjustLng2 «from».2 «to».2
  let adjustedTo : ℚ × ℚ := («to».1, adjustedLng2)
  let distance := sqrtQ (curveDistSq «from» «to»)
  if distance < 5 then [«from», adjustedTo]
  else
    let c := controlPoint sqrtQ «from» «to»
    let segments : ℤ := max 3 (min ⌊distance / 10⌋ 8)
    let points : List (ℚ × ℚ) :=
      (List.range (segments.toNat + 1)).map (fun (i : ℕ) =>
        let t : ℚ := (i : ℚ) / (segments : ℚ)
        let t2 := t * t
        let mt := 1 - t
        let mt2 := mt * mt
        (mt2 * «from».1 + 2 * mt * t * c.1 + t2 * «to».1,
         mt2 * «from».2 + 2 * mt * t * c.2 + t2 * adjustedLng2))
    if 2 < points.length then points else [«from», adjustedTo]

/-- Fresh variant-1 route for the first flight of a pair
(Timeline.vue lines 576-590); both codes are valid at every call site, the
fallback branch is unreachable. -/
def mkRoute (sqrtQ : ℚ → ℚ) (flight : FlightData) : Route :=
  match AIRPORT_COORDINATES flight.origin, AIRPORT_COORDINATES flight.destination with
  | some fromAirport, some toAirport =>
    { key := flight.origin ++ "-" ++ flight.destination
      «from» := flight.origin
      «to» := flight.destination
      count := 1
      flights := [flight]
      coordinates := createCurvedPath sqrtQ (fromAirport.lat, fromAirport.lng)
        (toAirport.lat, toAirport.lng)
      opacity := 0.4 }
  | _, _ =>
    { key := flight.origin ++ "-" ++ flight.destination
      «from» := flight.origin
      «to» := flight.destination
      count := 1
      flights := [flight]
      coordinates := []
      opacity := 0.4 }

/-- Merge of one more flight into an existing variant-1 route
(Timeline.vue lines 572-574). -/
def updRoute (r : Route) (flight : FlightData) : Route :=
  { r with count := r.count + 1, flights := r.flights ++ [flight] }

/-- The `routes` computed property of variant 1 (Timeline.vue lines
554-604): aggregate, then derive each opacity from the maximum count
(`Math.min(0.3 + (route.count / maxCount) * 0.7, 1.0)` with
`maxCount = Math.max(...counts, 1)`). -/
def routes (sqrtQ : ℚ → ℚ) (flights : List FlightData) : List Route :=
  let routeArray := (aggregate validAirport (mkRoute sqrtQ) updRoute flights).map (fun e => e.2)
  let maxCount : ℕ := routeArray.foldl (fun acc r => max acc r.count) 1
  routeArray.map (fun r =>
    { r with opacity := min (0.3 + ((r.count : ℚ) / (maxCount : ℚ)) * 0.7) 1 })

/-- Zoom configuration of variant 1 (interface `ZoomLevels`). -/
structure ZoomLevels where
  minZoom : ℕ
  maxZoom : ℕ
  initialZoom : ℕ
  deriving DecidableEq

/-- `Math.max` spread over a nonempty list (every call site is guarded by a
nonemptiness check). -/
def listMax (l : List ℚ) : ℚ :=
  match l with
  | [] => 0
  | x :: xs => xs.foldl max x

/-- `Math.min` spread over a nonempty list. -/
def listMin (l : List ℚ) : ℚ :=
  match l with
  | [] => 0
  | x :: xs => xs.foldl min x

/-- The `zoomLevels` computed property (Timeline.vue lines 725-781): it
collects ALL coordinates of every route path (including intermediate curve
samples), measures the latitude/longitude spread, and buckets the larger
spread into the global/continental/regional/country/local tiers. -/
def zoomLevels (routes : List Route) : ZoomLevels :=
  if routes.isEmpty then ⟨2, 18, 2⟩
  else
    let allRouteCoordinates : List (ℚ × ℚ) :=
      routes.foldl (fun acc r => acc ++ r.coordinates) []
    if allRouteCoordinates.isEmpty then ⟨2, 18, 2⟩
    else
      let lats := allRouteCoordinates.map (fun c => c.1)
      let lngs := allRouteCoordinates.map (fun c => c.2)
      let latSpread := listMax lats - listMin lats
      let lngSpread := listMax lngs - listMin lngs
      let maxSpread := max latSpread lngSpread
      if maxSpread > 120 then ⟨2, 18, 2⟩
      else if maxSpread > 60 then ⟨2, 18, 3⟩
      else if maxSpread > 30 then ⟨3, 18, 4⟩
      else if maxSpread > 10 then ⟨4, 18, 5⟩
      else ⟨5, 18, 6⟩

/-- The endpoint collection of `mapBounds` (Timeline.vue lines 789-797):
only the first and the last coordinate of each route path with at least two
coordinates. -/
def collectRouteEndpoints (routes : List Route) : List (ℚ × ℚ) :=
  routes.foldl (fun acc r =>
    if 2 ≤ r.coordinates.length then
      acc ++ [r.coordinates.getD 0 (0, 0),
              r.coordinates.getD (r.coordinates.length - 1) (0, 0)]
    else acc) []

/-- Body of `mapBounds` after endpoint collection (Timeline.vue lines
799-837): wrap-aware longitude range, asymmetric clamped padding, southwest
and northeast corners. -/
def boundsFromEndpoints (routeEndpoints : List (ℚ × ℚ)) :
    Option ((ℚ × ℚ) × (ℚ × ℚ)) :=
  if routeEndpoints.isEmpty then none
  else
    let lats := routeEndpoints.map (fun c => c.1)
    let lngs := routeEndpoints.map (fun c => c.2)
    let normalLngs := lngs.filter (fun lng => decide (-180 ≤ lng ∧ lng ≤ 180))
    let wrappedLngs := lngs.filter (fun lng => decide (lng < -180 ∨ 180 < lng))
    let mm : ℚ × ℚ :=
      if ¬wrappedLngs.isEmpty ∧ ¬normalLngs.isEmpty then
        (max (listMin normalLngs - 10) (-180), min (listMax wrappedLngs + 10) 360)
      else (listMin lngs, listMax lngs)
    let latSpread := listMax lats - listMin lats
    let latPadding := max (min (latSpread * 0.15) 8) 2
    let lngPadding := max (min ((mm.2 - mm.1) * 0.05) 5) 2
    some ((listMin lats - latPadding, mm.1 - lngPadding),
          (listMax lats + latPadding, mm.2 + lngPadding))

/-- The `mapBounds` computed property (Timeline.vue lines 784-839). -/
def mapBounds (routes : List Route) : Option ((ℚ × ℚ) × (ℚ × ℚ)) :=
  if routes.isEmpty then none
  else boundsFromEndpoints (collectRouteEndpoints routes)

/-- A displayed airport of variant 1 (interface `Airport`). -/
structure Airport where
  code : String
  displayCode : String
  lat : ℚ
  lng : ℚ
  name : String
  city : String
  country : String
  flightCount : ℕ
  deriving DecidableEq

/-- `processAirport` inside the `airports` computed property
(Timeline.vue lines 622-636): count the endpoint when (and only when) its
own code is present in the table; the other endpoint is not consulted. -/
def processAirport (airportMap : List (String × Airport)) (code : String) :
    List (String × Airport) :=
  match AIRPORT_COORDINATES code with
  | none => airportMap
  | some airportData =>
    match mapGet airportMap code with
    | some existing =>
      mapSet airportMap code { existing with flightCount := existing.flightCount + 1 }
    | none =>
      mapSet airportMap code
        { code := airportData.code
          displayCode := code
          lat := airportData.lat
          lng := airportData.lng
          name := airportData.name
          city := airportData.city
          country := airportData.country
          flightCount := 1 }

/-- First pass of `airports` (Timeline.vue lines 620-662): per-endpoint
flight counts plus the set of destinations of wrapped (westward) routes,
which requires both endpoints to be in the table. -/
def airportsFirstPass (flights : List FlightData) :
    List (String × Airport) × List String :=
  flights.foldl (fun st flight =>
    let m := processAirport (processAirport st.1 flight.origin) flight.destination
    let w :=
      match AIRPORT_COORDINATES flight.origin, AIRPORT_COORDINATES flight.destination with
      | some a1, some a2 =>
        if shouldGoWestward a1.lng a2.lng then
          if flight.destination ∈ st.2 then st.2 else st.2 ++ [flight.destination]
        else st.2
      | _, _ => st.2
    (m, w)) ([], [])

/-- The `airports` computed property of variant 1 (Timeline.vue lines
616-711): first pass, wrapped duplicates within the route bounds, and the
bounds filter on original airports. -/
def airports (sqrtQ : ℚ → ℚ) (flights : List FlightData) : List Airport :=
  let fp := airportsFirstPass flights
  let airportMap := fp.1
  let wrappedAirports := fp.2
  let allAirports := airportMap.map (fun e => e.2)
  match mapBounds (routes sqrtQ flights) with
  | some bounds =>
    let minLng := bounds.1.2
    let maxLng := bounds.2.2
    let wrappedAirportData := wrappedAirports.foldl (fun acc airportCode =>
      match mapGet airportMap airportCode with
      | some originalAirport =>
        let wrappedLng :=
          if originalAirport.lng < 0 then originalAirport.lng + 360
          else originalAirport.lng - 360
        if decide (minLng ≤ wrappedLng ∧ wrappedLng ≤ maxLng) then
          acc ++ [{ originalAirport with
                      code := originalAirport.code ++ "-wrapped"
                      displayCode := originalAirport.code
                      lng := wrappedLng }]
        else acc
      | none => acc) []
    (allAirports.filter (fun a => decide (minLng ≤ a.lng ∧ a.lng ≤ maxLng)))
      ++ wrappedAirportData
  | none => allAirports

end FlightMap

namespace FlightMapPins

/-- The `AIRPORT_COORDINATES` table of flight-map variant 2
(Timeline.vue lines 1781-1990): the same 26 entries as variant 1 without
NRT and TOY, in source order. -/
def AIRPORT_LIST : List (String × AirportData) :=
  [("SIN", ⟨"SIN", 1.3644, 103.9915, "Singapore Changi Airport", "Singapore", "Singapore"⟩),
   ("CGK", ⟨"CGK", -6.1256, 106.6559, "Soekarno-Hatta International Airport", "Jakarta", "Indonesia"⟩),
   ("BOS", ⟨"BOS", 42.3656, -71.0096, "Logan International Airport", "Boston", "USA"⟩),
   ("SFO", ⟨"SFO", 37.6213, -122.379, "San Francisco International Airport", "San Francisco", "USA"⟩),
   ("DXB", ⟨"DXB", 25.2532, 55.3657, "Dubai International Airport", "Dubai", "UAE"⟩),
   ("HKG", ⟨"HKG", 22.308, 113.9185, "Hong Kong International Airport", "Hong Kong", "Hong Kong"⟩),
   ("IST", ⟨"IST", 41.2619, 28.7411, "Istanbul Airport", "Istanbul", "Turkey"⟩),
   ("NCE", ⟨"NCE", 43.6584, 7.2159, "Nice Côte d\x27Azur Airport", "Nice", "France"⟩),
   ("LAX", ⟨"LAX", 33.9425, -118.4081, "Los Angeles International Airport", "Los Angeles", "USA"⟩),
   ("BLR", ⟨"BLR", 12.9491, 77.6678, "Kempegowda International Airport", "Bangalore", "India"⟩),
   ("MAA", ⟨"MAA", 12.9941, 80.1709, "Chennai International Airport", "Chennai", "India"⟩),
   ("KNO", ⟨"KNO", 3.6422, 98.8853, "Kualanamu International Airport", "Medan", "Indonesia"⟩),
   ("BKK", ⟨"BKK", 13.69, 100.7501, "Suvarnabhumi Airport", "Bangkok", "Thailand"⟩),
   ("PEN", ⟨"PEN", 5.2971, 100.2777, "Penang International Airport", "Penang", "Malaysia"⟩),
   ("ICN", ⟨"ICN", 37.4602, 126.4407, "Incheon International Airport", "Seoul", "South Korea"⟩),
   ("TPA", ⟨"TPA", 27.9755, -82.5332, "Tampa International Airport", "Tampa", "USA"⟩),
   ("ATL", ⟨"ATL", 33.6407, -84.4277, "Hartsfield-Jackson Atlanta International Airport", "Atlanta", "USA"⟩),
   ("GRU", ⟨"GRU", -23.4356, -46.4731, "São Paulo/Guarulhos International Airport", "São Paulo", "Brazil"⟩),
   ("FCO", ⟨"FCO", 41.8003, 12.2389, "Leonardo da Vinci International Airport", "Rome", "Italy"⟩),
   ("FRA", ⟨"FRA", 50.0379, 8.5622, "Frankfurt Airport", "Frankfurt", "Germany"⟩),
   ("MUC", ⟨"MUC", 48.3537, 11.775, "Munich Airport", "Munich", "Germany"⟩),
   ("CDG", ⟨"CDG", 49.0097, 2.5479, "Charles de Gaulle Airport", "Paris", "France"⟩),
   ("TXL", ⟨"TXL", 52.5597, 13.2877, "Berlin Tegel Airport", "Berlin", "Germany"⟩),
   ("MXP", ⟨"MXP", 45.6306, 8.7281, "Milan Malpensa Airport", "Milan", "Italy"⟩),
   ("AMS", ⟨"AMS", 52.3105, 4.7683, "Amsterdam Airport Schiphol", "Amsterdam", "Netherlands"⟩),
   ("HNL", ⟨"HNL", 21.3099, -157.8581, "Daniel K. Inouye International Airport", "Honolulu", "USA"⟩)]

/-- Record access `AIRPORT_COORDINATES[code]` for variant 2. -/
def AIRPORT_COORDINATES (code : String) : Option AirportData :=
  mapGet AIRPORT_LIST code

/-- Truthiness of `AIRPORT_COORDINATES[code]` for variant 2. -/
def validAirport (code : String) : Bool :=
  (AIRPORT_COORDINATES code).isSome

/-- An aggregated route of variant 2, with a straight two-point polyline
and a `thickness` field. -/
structure Route where
  key : String
  «from» : String
  «to» : String
  count : ℕ
  flights : List FlightData
  coordinates : List (ℚ × ℚ)
  thickness : ℕ
  opacity : ℚ
  deriving DecidableEq

/-- Fresh variant-2 route (Timeline.vue lines 2044-2061); both codes are
valid at every call site, the fallback branch is unreachable. -/
def mkRoute (flight : FlightData) : Route :=
  match AIRPORT_COORDINATES flight.origin, AIRPORT_COORDINATES flight.destination with
  | some fromAirport, some toAirport =>
    { key := flight.origin ++ "-" ++ flight.destination
      «from» := flight.origin
      «to» := flight.destination
      count := 1
      flights := [flight]
      coordinates := [(fromAirport.lat, fromAirport.lng), (toAirport.lat, toAirport.lng)]
      thickness := 1
      opacity := 0.4 }
  | _, _ =>
    { key := flight.origin ++ "-" ++ flight.destination
      «from» := flight.origin
      «to» := flight.destination
      count := 1
      flights := [flight]
      coordinates := []
      thickness := 1
      opacity := 0.4 }

/-- Merge of one more flight into an existing variant-2 route
(Timeline.vue lines 2038-2043): increment the count, then recalculate
`thickness = Math.min(Math.max(count, 1), 10)` and
`opacity = Math.min(0.3 + count * 0.1, 0.9)` from the new count. -/
def updRoute (r : Route) (flight : FlightData) : Route :=
  let count := r.count + 1
  { r with count := count
           flights := r.flights ++ [flight]
           thickness := min (max count 1) 10
           opacity := min (0.3 + (count : ℚ) * 0.1) 0.9 }

/-- The `routes` computed property of variant 2
(Timeline.vue lines 2020-2065). -/
def routes (flights : List FlightData) : List Route :=
  (aggregate validAirport mkRoute updRoute flights).map (fun e => e.2)

end FlightMapPins

namespace MiniChat

/-- Message roles of the chat widget. -/
inductive Role where
  | user
  | assistant
  | system
  deriving DecidableEq

/-- A chat message (interface `ChatMessage` in part_002); the timestamp is
optional there and `Date.now()` is abstracted as an explicit `now`
parameter below. -/
structure ChatMessage where
  role : Role
  content : String
  timestamp : Option ℕ
  deriving DecidableEq

/-- The `WITTY_MESSAGES` constant of part_002 (lines 29-40), in source
order. -/
def WITTY_MESSAGES : List String :=
  ["Oh my, looks like something is wrong with Advocado 🥑. You can [read about Steve here](/about) or try again later!",
   "Oops! Advocado seems to have taken a little nap 😴. While you wait, why not [learn about Steve](/about)? Or try again in a moment!",
   "Looks like Advocado is having a bad hair day! 🌪️ Try again soon, or [check out Steve\x27s profile](/about)!",
   "Advocado is feeling a bit under the weather today 🤒. Please try again later, or [read about Steve](/about)!",
   "Advocado is currently doing some avocado yoga to recover 🧘‍♂️. [Browse Steve\x27s info](/about) or try again in a bit!",
   "Looks like Advocado spilled its guacamole! 🥑💦 While we clean up, [learn about Steve](/about) or try again later!",
   "Advocado is currently on a quick coffee break ☕. [Read Steve\x27s story](/about) or try again in a moment!",
   "Looks like Advocado is having a moment... 🤔 Try again soon, or [discover more about Steve](/about)!",
   "Advocado is practicing its avocado meditation 🧘‍♀️. Please try again later, or [explore Steve\x27s background](/about)!",
   "Looks like Advocado is doing some emergency guac maintenance! 🛠️ [Check out Steve\x27s profile](/about) or try again in a bit!"]

/-- `getRandomWittyMessage` (part_002 lines 89-90); the call to
`Math.random()` is abstracted by the index `k`:
`Math.floor(Math.random() * WITTY_MESSAGES.length)` is some index in
`[0, WITTY_MESSAGES.length)`, here `k % WITTY_MESSAGES.length`. -/
def getRandomWittyMessage (k : ℕ) : String :=
  WITTY_MESSAGES.getD (k % WITTY_MESSAGES.length) ""

/-- Split a character stream at every newline, JavaScript
`String.prototype.split("\n")` (always returns at least one piece; the
pieces themselves contain no newline). -/
def splitNl : List Char → List (List Char)
  | [] => [[]]
  | c :: cs =>
    if c = '\n' then [] :: splitNl cs
    else
      match splitNl cs with
      | [] => [[c]]
      | l :: ls => (c :: l) :: ls

/-- `buffer.split("\n")` on Lean strings. -/
def splitLines (s : String) : List String :=
  (splitNl s.data).map (fun l => String.mk l)

/-- JavaScript `!s.trim()` — the string trims to empty, i.e. consists of
whitespace only. -/
def isBlank (s : String) : Bool :=
  s.data.all (fun c => c.isWhitespace)

/-- The text contributed by one complete line: nothing for a blank or
unparseable line or an empty (falsy) delta, the delta content otherwise. -/
def lineDelta (parseDelta : String → Option String) (line : String) : String :=
  if isBlank line then "" else ((parseDelta line).getD "")

/-- State of the streaming read loop of `sendMessage` (part_002 lines
249-312): the carried line `buffer`, the accumulated
`currentAssistantContent`, the `assistantMessageAdded` flag and the
conversation so far. -/
structure StreamAcc where
  buffer : String
  currentAssistantContent : String
  assistantMessageAdded : Bool
  messages : List ChatMessage
  deriving DecidableEq

/-- `messages.value[messages.value.length - 1].content = c` — replace the
content of the last message (no-op on an empty list, which never occurs at
the call sites). -/
def setLastContent (l : List ChatMessage) (c : String) : List ChatMessage :=
  l.dropLast ++ (l.getLast?.elim [] (fun m => [{ m with content := c }]))

/-- Processing of one complete line of the stream (part_002 lines
293-311): skip blank lines, parse the line (`parseDelta` abstracts
`JSON.parse` plus the `choices[0]?.delta` projection, `none` for any
parse failure), and on a truthy `delta.content` push the assistant message
if not yet present and extend it with the delta. -/
def processLine (parseDelta : String → Option String) (now : ℕ)
    (st : StreamAcc) (line : String) : StreamAcc :=
  if isBlank line then st
  else
    match parseDelta line with
    | none => st
    | some content =>
      if content = "" then st
      else
        let msgs :=
          if st.assistantMessageAdded then st.messages
          else st.messages ++ [⟨Role.assistant, "", some now⟩]
        let newContent := st.currentAssistantContent ++ content
        { buffer := st.buffer
          currentAssistantContent := newContent
          assistantMessageAdded := true
          messages := setLastContent msgs newContent }

/-- Processing of one decoded chunk (part_002 lines 289-311): append to
the buffer, split on newlines, retain the trailing partial line
(`buffer = lines.pop() || ""`) and process each complete line in order. -/
def processChunk (parseDelta : String → Option String) (now : ℕ)
    (st : StreamAcc) (chunk : String) : StreamAcc :=
  let buffer := st.buffer ++ chunk
  let lines := splitLines buffer
  (lines.dropLast).foldl (processLine parseDelta now)
    { st with buffer := lines.getLastD "" }

/-- The whole read loop of `sendMessage` over the list of decoded chunks
delivered by the reader, starting from an empty buffer and no assistant
message. -/
def processStream (parseDelta : String → Option String) (now : ℕ)
    (msgs : List ChatMessage) (chunks : List String) : StreamAcc :=
  chunks.foldl (processChunk parseDelta now)
    { buffer := "", currentAssistantContent := "", assistantMessageAdded := false,
      messages := msgs }

/-- Outcome of the fetch + read loop: either the stream completes, or an
error is thrown (network failure, non-OK status, missing body — in which
case no chunk was processed — or a mid-stream read error after some
chunks); `k` abstracts the `Math.random()` draw of the fallback message. -/
inductive StreamOutcome where
  | success (chunks : List String)
  | failure (chunks : List String) (k : ℕ)

/-- The effect of `sendMessage` (part_002 lines 230-334) on the message
list: ignore blank input, append the user message, run the stream, and in
the catch block substitute a witty fallback — appended when no assistant
message exists yet, replacing the content when one exists but only
whitespace was received, leaving real partial content as-is. -/
def sendMessage (parseDelta : String → Option String) (now : ℕ)
    (msgs : List ChatMessage) (input : String) (outcome : StreamOutcome) :
    List ChatMessage :=
  if isBlank input then msgs
  else
    let msgs1 := msgs ++ [⟨Role.user, input, some now⟩]
    match outcome with
    | StreamOutcome.success chunks => (processStream parseDelta now msgs1 chunks).messages
    | StreamOutcome.failure chunks k =>
      let st := processStream parseDelta now msgs1 chunks
      if ¬st.assistantMessageAdded then
        st.messages ++ [⟨Role.assistant, getRandomWittyMessage k, some now⟩]
      else if isBlank st.currentAssistantContent then
        setLastContent st.messages (getRandomWittyMessage k)
      else st.messages

/-- Local per-tab state touched by the `chatMessages` branch of
`handleStorageChange` (part_002 lines 168-204). -/
structure TabState where
  messages : List ChatMessage
  isChatOpen : Bool
  isCompactMode : Bool
  hasStartedChat : Bool
  deriving DecidableEq

/-- The identity check of `handleStorageChange`: a peer message is already
known locally when some local message agrees on role, content and
timestamp. -/
def knownLocally (locals : List ChatMessage) (msg : ChatMessage) : Bool :=
  locals.any (fun existingMsg =>
    existingMsg.role = msg.role && existingMsg.content = msg.content &&
      existingMsg.timestamp = msg.timestamp)

/-- The `chatMessages` branch of `handleStorageChange` (part_002 lines
168-204) in the case the claim addresses: the peer tab delivered a value
that parses to a JSON array `newMessages` (the `JSON.parse` of the raw
event value is abstracted away).  Open the chat if the array contains an
unknown user message, adopt the array wholesale, and resync the compact
flags from its length. -/
def handleChatMessagesChange (st : TabState) (newMessages : List ChatMessage) :
    TabState :=
  let hasNewUserMessages :=
    newMessages.any (fun msg => msg.role = Role.user && !knownLocally st.messages msg)
  let isChatOpen := if hasNewUserMessages then true else st.isChatOpen
  if 0 < newMessages.length then
    { messages := newMessages, isChatOpen := isChatOpen,
      isCompactMode := false, hasStartedChat := true }
  else
    { messages := newMessages, isChatOpen := isChatOpen,
      isCompactMode := true, hasStartedChat := false }

/-- `isWittyMessage` (part_002 lines 130-145): an assistant message whose
content exactly equals a witty fallback, or a user message whose immediate
successor in the current message list is such an assistant message. -/
def isWittyMessage (messages : List ChatMessage) (msg : ChatMessage) (index : ℕ) :
    Bool :=
  if msg.role = Role.assistant && WITTY_MESSAGES.contains msg.content then true
  else if msg.role = Role.user && decide (index < messages.length - 1) then
    let nextMessage := messages.getD (index + 1) ⟨Role.system, "", none⟩
    nextMessage.role = Role.assistant && WITTY_MESSAGES.contains nextMessage.content
  else false

/-- `saveMessagesToStorage` (part_002 lines 147-151): the value written to
the `chatMessages` key is the current list with every witty-flagged entry
filtered out (`messages.value.filter((msg, index) => !isWittyMessage(msg,
index))`). -/
def saveMessagesToStorage (messages : List ChatMessage) : List ChatMessage :=
  ((messages.enum).filter (fun p => !isWittyMessage messages p.2 p.1)).map
    (fun p => p.2)

end MiniChat

/-- Two ordered airport pairs describe the same unordered pair. -/
def pairMatches (a b c d : String) : Prop :=
  (a = c ∧ b = d) ∨ (a = d ∧ b = c)

instance (a b c d : String) : Decidable (pairMatches a b c d) := by
  unfold pairMatches; infer_instance

/-- Number of submitted flights between `A` and `B` in either direction. -/
def flightCnt (flights : List FlightData) (A B : String) : ℕ :=
  (flights.filter (fun f => decide (pairMatches f.origin f.destination A B))).length

/-- Invariant of the shared aggregation loop after processing the flight
list `P` into the route map `m`: every entry sits under the key built from
its own endpoints, both endpoints are valid, its count is the number of
processed flights between its endpoints, distinct entries describe
distinct unordered pairs, and every processed valid flight is covered by
some entry. -/
structure AggInv {R : Type} (fromOf toOf : R → String) (countOf : R → ℕ)
    (valid : String → Bool) (P : List FlightData) (m : List (String × R)) : Prop where
  keys : ∀ e ∈ m, e.1 = fromOf e.2 ++ "-" ++ toOf e.2
  validFrom : ∀ e ∈ m, valid (fromOf e.2) = true
  validTo : ∀ e ∈ m, valid (toOf e.2) = true
  counts : ∀ e ∈ m, countOf e.2 = flightCnt P (fromOf e.2) (toOf e.2)
  distinct : m.Pairwise (fun e1 e2 =>
    ¬ pairMatches (fromOf e1.2) (toOf e1.2) (fromOf e2.2) (toOf e2.2))
  complete : ∀ f ∈ P, valid f.origin = true → valid f.destination = true →
    ∃ e ∈ m, pairMatches (fromOf e.2) (toOf e.2) f.origin f.destination

/-- Strings with equal character data are equal. -/
theorem str_ext {a b : String} (h : a.data = b.data) : a = b := by
  cases a; cases b; exact congrArg String.mk h

/-- Keys built from three-letter codes determine both codes. -/
theorem key_inj {o d o2 d2 : String} (h1 : o.length = 3) (h2 : o2.length = 3)
    (h : o ++ "-" ++ d = o2 ++ "-" ++ d2) : o = o2 ∧ d = d2 := by
  have hd : (o.data ++ ('-' :: [])) ++ d.data = (o2.data ++ ('-' :: [])) ++ d2.data := by
    have := congrArg String.data h
    simpa [String.data_append] using this
  have hlen : (o.data ++ ('-' :: [])).length = (o2.data ++ ('-' :: [])).length := by
    have h1' : o.data.length = 3 := h1
    have h2' : o2.data.length = 3 := h2
    simp [h1', h2']
  obtain ⟨h3, h4⟩ := List.append_inj hd hlen
  obtain ⟨h5, -⟩ := List.append_inj h3 (by
    have h1' : o.data.length = 3 := h1
    have h2' : o2.data.length = 3 := h2
    simp [h1', h2'])
  exact ⟨str_ext h5, str_ext h4⟩

theorem mapGet_eq_none_iff {α : Type} {m : List (String × α)} {k : String} :
    mapGet m k = none ↔ ∀ e ∈ m, e.1 ≠ k := by
  simp [mapGet, List.find?_eq_none]

theorem mapGet_eq_some {α : Type} {m : List (String × α)} {k : String} {v : α}
    (h : mapGet m k = some v) : ∃ e ∈ m, e.1 = k ∧ e.2 = v := by
  unfold mapGet at h
  rw [Option.map_eq_some'] at h
  obtain ⟨e, he, hv⟩ := h
  refine ⟨e, List.mem_of_find?_eq_some he, ?_, hv⟩
  have := List.find?_some he
  simpa using this

theorem mapSet_update {α : Type} {m : List (String × α)} {k : String} {v : α}
    (h : m.any (fun e => e.1 = k) = true) :
    mapSet m k v = m.map (fun e => if e.1 = k then (k, v) else e) := by
  simp [mapSet, h]

theorem mapSet_append {α : Type} {m : List (String × α)} {k : String} {v : α}
    (h : ¬ m.any (fun e => e.1 = k) = true) :
    mapSet m k v = m ++ [(k, v)] := by
  simp only [mapSet, h]
  simp

theorem any_of_mapGet_some {α : Type} {m : List (String × α)} {k : String} {v : α}
    (h : mapGet m k = some v) : m.any (fun e => e.1 = k) = true := by
  obtain ⟨e, he, hk, -⟩ := mapGet_eq_some h
  exact List.any_eq_true.mpr ⟨e, he, by simp [hk]⟩

theorem mem_mapSet {α : Type} {m : List (String × α)} {k : String} {v : α}
    {e : String × α} (h : e ∈ mapSet m k v) : e.2 = v ∨ e ∈ m := by
  unfold mapSet at h
  split at h
  · obtain ⟨e0, he0, hge⟩ := List.mem_map.mp h
    by_cases hk : e0.1 = k
    · left; rw [← hge]; simp [hk]
    · right; rw [← hge]; simpa [hk] using he0
  · rcases List.mem_append.mp h with h' | h'
    · right; exact h'
    · left; simp at h'; rw [h']

theorem pairMatches_symm {a b c d : String} (h : pairMatches a b c d) :
    pairMatches c d a b := by
  rcases h with ⟨h1, h2⟩ | ⟨h1, h2⟩
  · exact Or.inl ⟨h1.symm, h2.symm⟩
  · exact Or.inr ⟨h2.symm, h1.symm⟩

theorem pairMatches_refl (a b : String) : pairMatches a b a b :=
  Or.inl ⟨rfl, rfl⟩

theorem pairMatches_trans {x y a b c d : String} (h1 : pairMatches x y a b)
    (h2 : pairMatches a b c d) : pairMatches x y c d := by
  rcases h1 with ⟨e1, e2⟩ | ⟨e1, e2⟩ <;> rcases h2 with ⟨e3, e4⟩ | ⟨e3, e4⟩ <;>
    subst_vars
  · exact Or.inl ⟨rfl, rfl⟩
  · exact Or.inr ⟨rfl, rfl⟩
  · exact Or.inr ⟨rfl, rfl⟩
  · exact Or.inl ⟨rfl, rfl⟩

theorem flightCnt_append (P : List FlightData) (f : FlightData) (A B : String) :
    flightCnt (P ++ [f]) A B =
      flightCnt P A B + (if pairMatches f.origin f.destination A B then 1 else 0) := by
  simp only [flightCnt, List.filter_append, List.length_append]
  congr 1
  split
  · next h => simp [h]
  · next h => simp [h]

theorem flightCnt_congr {A B C D : String} (P : List FlightData)
    (h : pairMatches A B C D) : flightCnt P A B = flightCnt P C D := by
  unfold flightCnt
  congr 1
  refine List.filter_congr (fun f _ => ?_)
  apply decide_eq_decide.mpr
  constructor
  · exact fun hm => pairMatches_trans hm h
  · exact fun hm => pairMatches_trans hm (pairMatches_symm h)

theorem flightCnt_eq_zero {P : List FlightData} {A B : String}
    (h : ∀ f ∈ P, ¬ pairMatches f.origin f.destination A B) :
    flightCnt P A B = 0 := by
  unfold flightCnt
  rw [List.length_eq_zero]
  rw [List.filter_eq_nil_iff]
  intro f hf
  simpa using h f hf

theorem flightCnt_pos {P : List FlightData} {A B : String} {f : FlightData}
    (hf : f ∈ P) (h : pairMatches f.origin f.destination A B) :
    0 < flightCnt P A B := by
  unfold flightCnt
  rw [List.length_pos]
  intro hnil
  have := List.filter_eq_nil_iff.mp hnil f hf
  simp [h] at this

section AggInvariant

variable {R : Type}
variable {valid : String → Bool} {mkNew : FlightData → R} {upd : R → FlightData → R}
variable {fromOf toOf : R → String} {countOf : R → ℕ}

/-- The distinct-pairs relation of `AggInv` is symmetric. -/
theorem aggRel_symm :
    Symmetric (fun e1 e2 : String × R =>
      ¬ pairMatches (fromOf e1.2) (toOf e1.2) (fromOf e2.2) (toOf e2.2)) := by
  intro x y hxy hpm
  exact hxy (pairMatches_symm hpm)

/-- Members of the map with the key of a found entry carry the same
unordered pair as that entry. -/
theorem aggInv_key_pair
    (hval : ∀ c, valid c = true → c.length = 3)
    {P : List FlightData} {m : List (String × R)}
    (inv : AggInv fromOf toOf countOf valid P m)
    {e1 e2 : String × R} (h1 : e1 ∈ m) (h2 : e2 ∈ m) (hk : e1.1 = e2.1) :
    fromOf e1.2 = fromOf e2.2 ∧ toOf e1.2 = toOf e2.2 := by
  have k1 := inv.keys e1 h1
  have k2 := inv.keys e2 h2
  exact key_inj (hval _ (inv.validFrom e1 h1)) (hval _ (inv.validFrom e2 h2))
    (by rw [← k1, ← k2, hk])

/-- Update case of the invariant preservation: the flight was found under
the key `K` (forward or reverse), and the entry there is merged. -/
theorem aggInv_update
    (hval : ∀ c, valid c = true → c.length = 3)
    (huf : ∀ r f, fromOf (upd r f) = fromOf r)
    (hut : ∀ r f, toOf (upd r f) = toOf r)
    (huc : ∀ r f, countOf (upd r f) = countOf r + 1)
    {P : List FlightData} {m : List (String × R)} {f : FlightData} {K : String} {r : R}
    (inv : AggInv fromOf toOf countOf valid P m)
    (hget : mapGet m K = some r)
    (hpm : pairMatches (fromOf r) (toOf r) f.origin f.destination) :
    AggInv fromOf toOf countOf valid (P ++ [f]) (mapSet m K (upd r f)) := by
  obtain ⟨e0, he0, hk0, hv0⟩ := mapGet_eq_some hget
  have hKey : K = fromOf r ++ "-" ++ toOf r := by
    rw [← hk0, inv.keys e0 he0, hv0]
  have hset := mapSet_update (v := upd r f) (any_of_mapGet_some hget)
  -- entries with key K carry the pair of r
  have hpair_of_key : ∀ e ∈ m, e.1 = K → fromOf e.2 = fromOf r ∧ toOf e.2 = toOf r := by
    intro e he hk
    have := aggInv_key_pair hval inv he he0 (by rw [hk, hk0])
    rw [hv0] at this
    exact this
  -- entries with a different key do not carry the pair of f
  have hother : ∀ e ∈ m, e.1 ≠ K →
      ¬ pairMatches (fromOf e.2) (toOf e.2) f.origin f.destination := by
    intro e he hk hmm
    have hepair : pairMatches (fromOf e.2) (toOf e.2) (fromOf r) (toOf r) :=
      pairMatches_trans hmm (pairMatches_symm hpm)
    have hne : e ≠ e0 := by
      intro hEq
      exact hk (by rw [hEq, hk0])
    have := (inv.distinct.forall aggRel_symm) he he0 hne
    rw [hv0] at this
    exact this hepair
  rw [hset]
  constructor
  · -- keys
    intro e he
    obtain ⟨e1, he1, hge⟩ := List.mem_map.mp he
    by_cases hk : e1.1 = K
    · have hp := hpair_of_key e1 he1 hk
      rw [← hge]
      simp only [hk, if_pos]
      simp [huf, hut, hp.1, hp.2, hKey]
    · rw [← hge]
      simp only [hk, if_neg, ite_false]
      exact inv.keys e1 he1
  · -- validFrom
    intro e he
    obtain ⟨e1, he1, hge⟩ := List.mem_map.mp he
    by_cases hk : e1.1 = K
    · rw [← hge]
      simp only [hk, if_pos]
      have h1 := inv.validFrom e0 he0
      rw [hv0] at h1
      simpa [huf] using h1
    · rw [← hge]
      simp only [hk, ite_false]
      exact inv.validFrom e1 he1
  · -- validTo
    intro e he
    obtain ⟨e1, he1, hge⟩ := List.mem_map.mp he
    by_cases hk : e1.1 = K
    · rw [← hge]
      simp only [hk, if_pos]
      have h1 := inv.validTo e0 he0
      rw [hv0] at h1
      simpa [hut] using h1
    · rw [← hge]
      simp only [hk, ite_false]
      exact inv.validTo e1 he1
  · -- counts
    intro e he
    obtain ⟨e1, he1, hge⟩ := List.mem_map.mp he
    by_cases hk : e1.1 = K
    · rw [← hge]
      simp only [hk, if_pos]
      have hc0 := inv.counts e0 he0
      rw [hv0] at hc0
      simp only [huf, hut, huc]
      rw [hc0, flightCnt_append]
      rw [if_pos (pairMatches_symm hpm)]
    · rw [← hge]
      simp only [hk, ite_false]
      rw [inv.counts e1 he1, flightCnt_append,
        if_neg (fun hmm => hother e1 he1 hk (pairMatches_symm hmm)), Nat.add_zero]
  · -- distinct
    rw [List.pairwise_map]
    refine List.Pairwise.imp_of_mem ?_ inv.distinct
    intro a b ha hb hrel
    by_cases hka : a.1 = K <;> by_cases hkb : b.1 = K
    · exfalso
      have hpa := hpair_of_key a ha hka
      have hpb := hpair_of_key b hb hkb
      exact hrel (by rw [hpa.1, hpa.2, hpb.1, hpb.2]; exact pairMatches_refl _ _)
    · have hpa := hpair_of_key a ha hka
      simp only [hka, if_pos, hkb, ite_false]
      simp only [huf, hut]
      rw [hpa.1, hpa.2] at hrel
      exact hrel
    · have hpb := hpair_of_key b hb hkb
      simp only [hka, ite_false, hkb, if_pos]
      simp only [huf, hut]
      rw [hpb.1, hpb.2] at hrel
      exact hrel
    · simpa [hka, hkb] using hrel
  · -- complete
    intro g hg hvo hvd
    rcases List.mem_append.mp hg with hg' | hg'
    · obtain ⟨e, he, hpe⟩ := inv.complete g hg' hvo hvd
      refine ⟨(fun e => if e.1 = K then (K, upd r f) else e) e, List.mem_map_of_mem _ he, ?_⟩
      by_cases hk : e.1 = K
      · have hp := hpair_of_key e he hk
        simp only [hk, if_pos]
        simp only [huf, hut]
        rw [← hp.1, ← hp.2]
        exact hpe
      · simpa [hk] using hpe
    · have hgf : g = f := by simpa using hg'
      rw [hgf]
      refine ⟨(fun e => if e.1 = K then (K, upd r f) else e) e0, List.mem_map_of_mem _ he0, ?_⟩
      simp only [hk0, if_pos]
      simp only [huf, hut]
      exact hpm

end AggInvariant

section AggInvariantMain

variable {R : Type}
variable {valid : String → Bool} {mkNew : FlightData → R} {upd : R → FlightData → R}
variable {fromOf toOf : R → String} {countOf : R → ℕ}

/-- Append case of the invariant preservation: neither the forward nor the
reverse key is present, a fresh route is appended under the forward key. -/
theorem aggInv_append
    (hnf : ∀ f, fromOf (mkNew f) = f.origin)
    (hnt : ∀ f, toOf (mkNew f) = f.destination)
    (hnc : ∀ f, countOf (mkNew f) = 1)
    {P : List FlightData} {m : List (String × R)} {f : FlightData}
    (inv : AggInv fromOf toOf countOf valid P m)
    (hget1 : mapGet m (f.origin ++ "-" ++ f.destination) = none)
    (hget2 : mapGet m (f.destination ++ "-" ++ f.origin) = none)
    (hvo : valid f.origin = true) (hvd : valid f.destination = true) :
    AggInv fromOf toOf countOf valid (P ++ [f])
      (mapSet m (f.origin ++ "-" ++ f.destination) (mkNew f)) := by
  have hnone1 := mapGet_eq_none_iff.mp hget1
  have hnone2 := mapGet_eq_none_iff.mp hget2
  have hany : ¬ m.any (fun e => e.1 = f.origin ++ "-" ++ f.destination) = true := by
    intro h
    obtain ⟨e, he, hk⟩ := List.any_eq_true.mp h
    exact hnone1 e he (by simpa using hk)
  rw [mapSet_append hany]
  -- no existing entry carries the pair of f
  have hnomatch : ∀ e ∈ m,
      ¬ pairMatches (fromOf e.2) (toOf e.2) f.origin f.destination := by
    intro e he hpm
    have hkey := inv.keys e he
    rcases hpm with ⟨h1, h2⟩ | ⟨h1, h2⟩
    · exact hnone1 e he (by rw [hkey, h1, h2])
    · exact hnone2 e he (by rw [hkey, h1, h2])
  constructor
  · intro e he
    rcases List.mem_append.mp he with h' | h'
    · exact inv.keys e h'
    · have : e = (f.origin ++ "-" ++ f.destination, mkNew f) := by simpa using h'
      rw [this]
      simp [hnf, hnt]
  · intro e he
    rcases List.mem_append.mp he with h' | h'
    · exact inv.validFrom e h'
    · have : e = (f.origin ++ "-" ++ f.destination, mkNew f) := by simpa using h'
      rw [this]
      simpa [hnf] using hvo
  · intro e he
    rcases List.mem_append.mp he with h' | h'
    · exact inv.validTo e h'
    · have : e = (f.origin ++ "-" ++ f.destination, mkNew f) := by simpa using h'
      rw [this]
      simpa [hnt] using hvd
  · intro e he
    rcases List.mem_append.mp he with h' | h'
    · rw [inv.counts e h', flightCnt_append,
        if_neg (fun hmm => hnomatch e h' (pairMatches_symm hmm)), Nat.add_zero]
    · have : e = (f.origin ++ "-" ++ f.destination, mkNew f) := by simpa using h'
      rw [this]
      simp only [hnf, hnt, hnc]
      rw [flightCnt_append, if_pos (pairMatches_refl _ _)]
      have hzero : flightCnt P f.origin f.destination = 0 := by
        apply flightCnt_eq_zero
        intro g hg hpm
        have hvgo : valid g.origin = true := by
          rcases hpm with ⟨h1, -⟩ | ⟨h1, -⟩
          · rw [h1]; exact hvo
          · rw [h1]; exact hvd
        have hvgd : valid g.destination = true := by
          rcases hpm with ⟨-, h2⟩ | ⟨-, h2⟩
          · rw [h2]; exact hvd
          · rw [h2]; exact hvo
        obtain ⟨e, he, hpe⟩ := inv.complete g hg hvgo hvgd
        exact hnomatch e he (pairMatches_trans hpe hpm)
      rw [hzero]
  · rw [List.pairwise_append]
    refine ⟨inv.distinct, List.pairwise_singleton _ _, ?_⟩
    intro a ha b hb
    have : b = (f.origin ++ "-" ++ f.destination, mkNew f) := by simpa using hb
    rw [this]
    simp only [hnf, hnt]
    exact hnomatch a ha
  · intro g hg hvgo hvgd
    rcases List.mem_append.mp hg with h' | h'
    · obtain ⟨e, he, hpe⟩ := inv.complete g h' hvgo hvgd
      exact ⟨e, List.mem_append_left _ he, hpe⟩
    · have hgf : g = f := by simpa using h'
      rw [hgf]
      refine ⟨(f.origin ++ "-" ++ f.destination, mkNew f),
        List.mem_append_right _ (by simp), ?_⟩
      simp only [hnf, hnt]
      exact pairMatches_refl _ _

/-- Skip case of the invariant preservation: the flight fails validation
and the map is untouched. -/
theorem aggInv_skip
    {P : List FlightData} {m : List (String × R)} {f : FlightData}
    (inv : AggInv fromOf toOf countOf valid P m)
    (hinv : ¬ (valid f.origin && valid f.destination) = true) :
    AggInv fromOf toOf countOf valid (P ++ [f]) m := by
  have hbad : valid f.origin = false ∨ valid f.destination = false := by
    cases h1 : valid f.origin with
    | false => exact Or.inl rfl
    | true =>
      cases h2 : valid f.destination with
      | false => exact Or.inr rfl
      | true => exact absurd (by rw [h1, h2]; rfl) hinv
  have hnomatch : ∀ e ∈ m,
      ¬ pairMatches f.origin f.destination (fromOf e.2) (toOf e.2) := by
    intro e he hpm
    have hvo : valid f.origin = true := by
      rcases hpm with ⟨h1, -⟩ | ⟨h1, -⟩
      · rw [h1]; exact inv.validFrom e he
      · rw [h1]; exact inv.validTo e he
    have hvd : valid f.destination = true := by
      rcases hpm with ⟨-, h2⟩ | ⟨-, h2⟩
      · rw [h2]; exact inv.validTo e he
      · rw [h2]; exact inv.validFrom e he
    rcases hbad with h | h
    · rw [hvo] at h; simp at h
    · rw [hvd] at h; simp at h
  refine ⟨inv.keys, inv.validFrom, inv.validTo, ?_, inv.distinct, ?_⟩
  · intro e he
    rw [inv.counts e he, flightCnt_append, if_neg (hnomatch e he), Nat.add_zero]
  · intro g hg hvgo hvgd
    rcases List.mem_append.mp hg with h' | h'
    · exact inv.complete g h' hvgo hvgd
    · have hgf : g = f := by simpa using h'
      exfalso
      rw [hgf] at hvgo hvgd
      rcases hbad with h | h
      · rw [hvgo] at h; simp at h
      · rw [hvgd] at h; simp at h

/-- One aggregation step preserves the invariant. -/
theorem aggStep_inv
    (hval : ∀ c, valid c = true → c.length = 3)
    (hnf : ∀ f, fromOf (mkNew f) = f.origin)
    (hnt : ∀ f, toOf (mkNew f) = f.destination)
    (hnc : ∀ f, countOf (mkNew f) = 1)
    (huf : ∀ r f, fromOf (upd r f) = fromOf r)
    (hut : ∀ r f, toOf (upd r f) = toOf r)
    (huc : ∀ r f, countOf (upd r f) = countOf r + 1)
    {P : List FlightData} {m : List (String × R)} (f : FlightData)
    (inv : AggInv fromOf toOf countOf valid P m) :
    AggInv fromOf toOf countOf valid (P ++ [f]) (aggStep valid mkNew upd m f) := by
  by_cases hv : (valid f.origin && valid f.destination) = true
  · have hvo : valid f.origin = true := (Bool.and_eq_true _ _).mp hv |>.1
    have hvd : valid f.destination = true := (Bool.and_eq_true _ _).mp hv |>.2
    cases hk1 : mapGet m (f.origin ++ "-" ++ f.destination) with
    | some r =>
      rw [show aggStep valid mkNew upd m f
          = mapSet m (f.origin ++ "-" ++ f.destination) (upd r f) by
        simp [aggStep, hv, hk1]]
      obtain ⟨e0, he0, hk0, hv0⟩ := mapGet_eq_some hk1
      have hkey := inv.keys e0 he0
      rw [hv0] at hkey
      have hpm : pairMatches (fromOf r) (toOf r) f.origin f.destination := by
        have := key_inj (hval _ (by
            have := inv.validFrom e0 he0; rw [hv0] at this; exact this)) (hval _ hvo)
          (by rw [← hkey, hk0])
        exact Or.inl this
      exact aggInv_update hval huf hut huc inv hk1 hpm
    | none =>
      cases hk2 : mapGet m (f.destination ++ "-" ++ f.origin) with
      | some r =>
        rw [show aggStep valid mkNew upd m f
            = mapSet m (f.destination ++ "-" ++ f.origin) (upd r f) by
          simp [aggStep, hv, hk1, hk2]]
        obtain ⟨e0, he0, hk0, hv0⟩ := mapGet_eq_some hk2
        have hkey := inv.keys e0 he0
        rw [hv0] at hkey
        have hpm : pairMatches (fromOf r) (toOf r) f.origin f.destination := by
          have := key_inj (hval _ (by
              have := inv.validFrom e0 he0; rw [hv0] at this; exact this)) (hval _ hvd)
            (by rw [← hkey, hk0])
          exact Or.inr this
        exact aggInv_update hval huf hut huc inv hk2 hpm
      | none =>
        rw [show aggStep valid mkNew upd m f
            = mapSet m (f.origin ++ "-" ++ f.destination) (mkNew f) by
          simp [aggStep, hv, hk1, hk2]]
        exact aggInv_append hnf hnt hnc inv hk1 hk2 hvo hvd
  · rw [show aggStep valid mkNew upd m f = m by simp [aggStep, hv]]
    exact aggInv_skip inv hv

/-- The invariant holds of the fully aggregated route map. -/
theorem aggregate_inv
    (hval : ∀ c, valid c = true → c.length = 3)
    (hnf : ∀ f, fromOf (mkNew f) = f.origin)
    (hnt : ∀ f, toOf (mkNew f) = f.destination)
    (hnc : ∀ f, countOf (mkNew f) = 1)
    (huf : ∀ r f, fromOf (upd r f) = fromOf r)
    (hut : ∀ r f, toOf (upd r f) = toOf r)
    (huc : ∀ r f, countOf (upd r f) = countOf r + 1)
    (flights : List FlightData) :
    AggInv fromOf toOf countOf valid flights
      (aggregate valid mkNew upd flights) := by
  have main : ∀ (fs P : List FlightData) (m : List (String × R)),
      AggInv fromOf toOf countOf valid P m →
      AggInv fromOf toOf countOf valid (P ++ fs)
        (fs.foldl (aggStep valid mkNew upd) m) := by
    intro fs
    induction fs with
    | nil => intro P m inv; simpa using inv
    | cons f fs ih =>
      intro P m inv
      have h1 := aggStep_inv hval hnf hnt hnc huf hut huc f inv
      have h2 := ih (P ++ [f]) _ h1
      simpa using h2
  have base : AggInv fromOf toOf countOf valid [] ([] : List (String × R)) := by
    refine ⟨?_, ?_, ?_, ?_, List.Pairwise.nil, ?_⟩ <;> intro e he <;> simp at he
  have := main flights [] [] base
  simpa [aggregate] using this

/-- Every entry of the aggregated map satisfies any predicate established
by `mkNew` and preserved by `upd`. -/
theorem aggregate_pred (valid : String → Bool) (mkNew : FlightData → R)
    (upd : R → FlightData → R) (P0 : R → Prop)
    (hmk : ∀ f, P0 (mkNew f)) (hupd : ∀ r f, P0 r → P0 (upd r f))
    (flights : List FlightData) :
    ∀ e ∈ aggregate valid mkNew upd flights, P0 e.2 := by
  have main : ∀ (fs : List FlightData) (m : List (String × R)),
      (∀ e ∈ m, P0 e.2) →
      ∀ e ∈ fs.foldl (aggStep valid mkNew upd) m, P0 e.2 := by
    intro fs
    induction fs with
    | nil => intro m hm; simpa using hm
    | cons f fs ih =>
      intro m hm
      refine ih _ ?_
      intro e he
      simp only [aggStep] at he
      split at he
      · split at he
        · next r hr =>
          rcases mem_mapSet he with h' | h'
          · rw [h']
            obtain ⟨e0, he0, -, hv0⟩ := mapGet_eq_some hr
            exact hupd _ _ (hv0 ▸ hm e0 he0)
          · exact hm e h'
        · split at he
          · next r hr =>
            rcases mem_mapSet he with h' | h'
            · rw [h']
              obtain ⟨e0, he0, -, hv0⟩ := mapGet_eq_some hr
              exact hupd _ _ (hv0 ▸ hm e0 he0)
            · exact hm e h'
          · rcases mem_mapSet he with h' | h'
            · rw [h']; exact hmk f
            · exact hm e h'
      · exact hm e he
  exact main flights [] (by simp)

end AggInvariantMain

/-- Every code in the variant-1 airport table has exactly three letters. -/
theorem FlightMap.validAirport_length (c : String) (h : FlightMap.validAirport c = true) :
    c.length = 3 := by
  unfold FlightMap.validAirport FlightMap.AIRPORT_COORDINATES at h
  rw [Option.isSome_iff_exists] at h
  obtain ⟨v, hv⟩ := h
  obtain ⟨e, he, hk, -⟩ := mapGet_eq_some hv
  have hall : ∀ e ∈ FlightMap.AIRPORT_LIST, e.1.length = 3 := by decide
  rw [← hk]
  exact hall e he

/-- Every code in the variant-2 airport table has exactly three letters. -/
theorem FlightMapPins.validAirport_length_pins (c : String)
    (h : FlightMapPins.validAirport c = true) : c.length = 3 := by
  unfold FlightMapPins.validAirport FlightMapPins.AIRPORT_COORDINATES at h
  rw [Option.isSome_iff_exists] at h
  obtain ⟨v, hv⟩ := h
  obtain ⟨e, he, hk, -⟩ := mapGet_eq_some hv
  have hall : ∀ e ∈ FlightMapPins.AIRPORT_LIST, e.1.length = 3 := by decide
  rw [← hk]
  exact hall e he

theorem FlightMap.mkRoute_from (sqrtQ : ℚ → ℚ) (f : FlightData) :
    (FlightMap.mkRoute sqrtQ f).«from» = f.origin := by
  unfold FlightMap.mkRoute
  split <;> rfl

theorem FlightMap.mkRoute_to (sqrtQ : ℚ → ℚ) (f : FlightData) :
    (FlightMap.mkRoute sqrtQ f).«to» = f.destination := by
  unfold FlightMap.mkRoute
  split <;> rfl

theorem FlightMap.mkRoute_count (sqrtQ : ℚ → ℚ) (f : FlightData) :
    (FlightMap.mkRoute sqrtQ f).count = 1 := by
  unfold FlightMap.mkRoute
  split <;> rfl

theorem FlightMapPins.mkRoute_from_pins (f : FlightData) :
    (FlightMapPins.mkRoute f).«from» = f.origin := by
  unfold FlightMapPins.mkRoute
  split <;> rfl

theorem FlightMapPins.mkRoute_to_pins (f : FlightData) :
    (FlightMapPins.mkRoute f).«to» = f.destination := by
  unfold FlightMapPins.mkRoute
  split <;> rfl

theorem FlightMapPins.mkRoute_count_pins (f : FlightData) :
    (FlightMapPins.mkRoute f).count = 1 := by
  unfold FlightMapPins.mkRoute
  split <;> rfl

/-- The invariant instantiated for the variant-1 aggregation. -/
theorem FlightMap.aggregate_invariant (sqrtQ : ℚ → ℚ) (flights : List FlightData) :
    AggInv Route.«from» Route.«to» Route.count FlightMap.validAirport flights
      (aggregate FlightMap.validAirport (FlightMap.mkRoute sqrtQ)
        FlightMap.updRoute flights) :=
  @aggregate_inv FlightMap.Route FlightMap.validAirport (FlightMap.mkRoute sqrtQ)
    FlightMap.updRoute Route.«from» Route.«to» Route.count
    FlightMap.validAirport_length
    (FlightMap.mkRoute_from sqrtQ) (FlightMap.mkRoute_to sqrtQ)
    (FlightMap.mkRoute_count sqrtQ)
    (fun _ _ => rfl) (fun _ _ => rfl) (fun _ _ => rfl) flights

/-- The invariant instantiated for the variant-2 aggregation. -/
theorem FlightMapPins.aggregate_invariant_pins (flights : List FlightData) :
    AggInv Route.«from» Route.«to» Route.count FlightMapPins.validAirport flights
      (aggregate FlightMapPins.validAirport FlightMapPins.mkRoute
        FlightMapPins.updRoute flights) :=
  @aggregate_inv FlightMapPins.Route FlightMapPins.validAirport FlightMapPins.mkRoute
    FlightMapPins.updRoute Route.«from» Route.«to» Route.count
    FlightMapPins.validAirport_length_pins
    FlightMapPins.mkRoute_from_pins FlightMapPins.mkRoute_to_pins FlightMapPins.mkRoute_count_pins
    (fun _ _ => rfl) (fun _ _ => rfl) (fun _ _ => rfl) flights

/-- A pairwise-incompatible list keeps at most one element under any
filter selecting only mutually incompatible elements. -/
theorem filter_length_le_one {α : Type} {l : List α} {p : α → Bool}
    (Rr : α → α → Prop) (hpair : l.Pairwise Rr)
    (h : ∀ a b, p a = true → p b = true → ¬ Rr a b) :
    (l.filter p).length ≤ 1 := by
  induction hpair with
  | nil => simp
  | @cons a l h1 h2 ih =>
    by_cases hp : p a = true
    · rw [List.filter_cons_of_pos hp]
      have hempty : l.filter p = [] := by
        rw [List.filter_eq_nil_iff]
        intro b hb hpb
        exact h a b hp hpb (h1 b hb)
      rw [hempty]
      simp
    · rw [List.filter_cons_of_neg hp]
      exact ih

theorem flightCnt_pos_exists {P : List FlightData} {A B : String}
    (h : 0 < flightCnt P A B) :
    ∃ f ∈ P, pairMatches f.origin f.destination A B := by
  unfold flightCnt at h
  rw [List.length_pos] at h
  obtain ⟨f, hf⟩ := List.exists_mem_of_ne_nil _ h
  rw [List.mem_filter] at hf
  exact ⟨f, hf.1, by simpa using hf.2⟩

/-- Pair uniqueness, counts, and coverage for the variant-1 `routes`. -/
theorem FlightMap.routes_pair_spec (sqrtQ : ℚ → ℚ) (flights : List FlightData)
    (A B : String) (hA : FlightMap.validAirport A = true)
    (hB : FlightMap.validAirport B = true) :
    ((FlightMap.routes sqrtQ flights).filter
        (fun r => decide (pairMatches r.«from» r.«to» A B))).length ≤ 1
    ∧ (∀ r ∈ FlightMap.routes sqrtQ flights,
        pairMatches r.«from» r.«to» A B → r.count = flightCnt flights A B)
    ∧ (0 < flightCnt flights A B →
        ∃ r ∈ FlightMap.routes sqrtQ flights, pairMatches r.«from» r.«to» A B) := by
  have inv := FlightMap.aggregate_invariant sqrtQ flights
  refine ⟨?_, ?_, ?_⟩
  · simp only [FlightMap.routes, List.map_map]
    refine filter_length_le_one (fun r1 r2 =>
      ¬ pairMatches r1.«from» r1.«to» r2.«from» r2.«to») ?_ ?_
    · rw [List.pairwise_map]
      exact inv.distinct.imp (fun hab => hab)
    · intro a b hpa hpb hR
      exact hR (pairMatches_trans (of_decide_eq_true hpa)
        (pairMatches_symm (of_decide_eq_true hpb)))
  · intro r hr hpm
    simp only [FlightMap.routes, List.map_map] at hr
    obtain ⟨e, he, hge⟩ := List.mem_map.mp hr
    have hc := inv.counts e he
    have hcount : r.count = e.2.count := by rw [← hge]; rfl
    have hfrom : r.«from» = e.2.«from» := by rw [← hge]; rfl
    have hto : r.«to» = e.2.«to» := by rw [← hge]; rfl
    rw [hfrom, hto] at hpm
    rw [hcount, hc, flightCnt_congr flights hpm]
  · intro hpos
    obtain ⟨f, hf, hpm⟩ := flightCnt_pos_exists hpos
    have hvo : FlightMap.validAirport f.origin = true := by
      rcases hpm with ⟨h1, -⟩ | ⟨h1, -⟩
      · rw [h1]; exact hA
      · rw [h1]; exact hB
    have hvd : FlightMap.validAirport f.destination = true := by
      rcases hpm with ⟨-, h2⟩ | ⟨-, h2⟩
      · rw [h2]; exact hB
      · rw [h2]; exact hA
    obtain ⟨e, he, hpe⟩ := inv.complete f hf hvo hvd
    simp only [FlightMap.routes, List.map_map]
    exact ⟨_, List.mem_map_of_mem _ he, pairMatches_trans hpe hpm⟩

/-- Pair uniqueness, counts, and coverage for the variant-2 `routes`. -/
theorem FlightMapPins.routes_pair_spec_pins (flights : List FlightData)
    (A B : String) (hA : FlightMapPins.validAirport A = true)
    (hB : FlightMapPins.validAirport B = true) :
    ((FlightMapPins.routes flights).filter
        (fun r => decide (pairMatches r.«from» r.«to» A B))).length ≤ 1
    ∧ (∀ r ∈ FlightMapPins.routes flights,
        pairMatches r.«from» r.«to» A B → r.count = flightCnt flights A B)
    ∧ (0 < flightCnt flights A B →
        ∃ r ∈ FlightMapPins.routes flights, pairMatches r.«from» r.«to» A B) := by
  have inv := FlightMapPins.aggregate_invariant_pins flights
  refine ⟨?_, ?_, ?_⟩
  · simp only [FlightMapPins.routes]
    refine filter_length_le_one (fun r1 r2 =>
      ¬ pairMatches r1.«from» r1.«to» r2.«from» r2.«to») ?_ ?_
    · rw [List.pairwise_map]
      exact inv.distinct.imp (fun hab => hab)
    · intro a b hpa hpb hR
      exact hR (pairMatches_trans (of_decide_eq_true hpa)
        (pairMatches_symm (of_decide_eq_true hpb)))
  · intro r hr hpm
    simp only [FlightMapPins.routes] at hr
    obtain ⟨e, he, hge⟩ := List.mem_map.mp hr
    have hc := inv.counts e he
    have hcount : r.count = e.2.count := by rw [← hge]
    have hfrom : r.«from» = e.2.«from» := by rw [← hge]
    have hto : r.«to» = e.2.«to» := by rw [← hge]
    rw [hfrom, hto] at hpm
    rw [hcount, hc, flightCnt_congr flights hpm]
  · intro hpos
    obtain ⟨f, hf, hpm⟩ := flightCnt_pos_exists hpos
    have hvo : FlightMapPins.validAirport f.origin = true := by
      rcases hpm with ⟨h1, -⟩ | ⟨h1, -⟩
      · rw [h1]; exact hA
      · rw [h1]; exact hB
    have hvd : FlightMapPins.validAirport f.destination = true := by
      rcases hpm with ⟨-, h2⟩ | ⟨-, h2⟩
      · rw [h2]; exact hB
      · rw [h2]; exact hA
    obtain ⟨e, he, hpe⟩ := inv.complete f hf hvo hvd
    simp only [FlightMapPins.routes]
    exact ⟨_, List.mem_map_of_mem _ he, pairMatches_trans hpe hpm⟩

/-- Claim C1: for every flight list and every unordered pair of airports
present in the respective airport reference table, the route aggregator of
each flight-map variant keeps at most one `Route` for that pair, every
flight `A → B` or `B → A` merges into that same `Route`, and that `Route`
count equals the number of submitted flights between `A` and `B` in either
direction. -/
theorem routes_unordered_pair_merge (sqrtQ : ℚ → ℚ) (flights : List FlightData)
    (A B : String) :
    (FlightMap.validAirport A = true → FlightMap.validAirport B = true →
      ((FlightMap.routes sqrtQ flights).filter
          (fun r => decide (pairMatches r.«from» r.«to» A B))).length ≤ 1
      ∧ (∀ r ∈ FlightMap.routes sqrtQ flights,
          pairMatches r.«from» r.«to» A B → r.count = flightCnt flights A B)
      ∧ (0 < flightCnt flights A B →
          ∃ r ∈ FlightMap.routes sqrtQ flights, pairMatches r.«from» r.«to» A B))
    ∧ (FlightMapPins.validAirport A = true → FlightMapPins.validAirport B = true →
      ((FlightMapPins.routes flights).filter
          (fun r => decide (pairMatches r.«from» r.«to» A B))).length ≤ 1
      ∧ (∀ r ∈ FlightMapPins.routes flights,
          pairMatches r.«from» r.«to» A B → r.count = flightCnt flights A B)
      ∧ (0 < flightCnt flights A B →
          ∃ r ∈ FlightMapPins.routes flights, pairMatches r.«from» r.«to» A B)) :=
  ⟨fun hA hB => FlightMap.routes_pair_spec sqrtQ flights A B hA hB,
   fun hA hB => FlightMapPins.routes_pair_spec_pins flights A B hA hB⟩

/-- Witness for the C1 theorem at a concrete pair of opposite flights
between SIN and CGK. -/
theorem routes_unordered_pair_merge_witness :
    (((FlightMap.routes (fun _ => 0)
          [⟨"2019-01-01", "08:00", "SIN", "CGK", "SQ950", "", "", "SQ"⟩,
           ⟨"2019-01-05", "12:00", "CGK", "SIN", "SQ951", "", "", "SQ"⟩]).filter
        (fun r => decide (pairMatches r.«from» r.«to» "SIN" "CGK"))).length ≤ 1
      ∧ (∀ r ∈ FlightMap.routes (fun _ => 0)
          [⟨"2019-01-01", "08:00", "SIN", "CGK", "SQ950", "", "", "SQ"⟩,
           ⟨"2019-01-05", "12:00", "CGK", "SIN", "SQ951", "", "", "SQ"⟩],
          pairMatches r.«from» r.«to» "SIN" "CGK" →
            r.count = flightCnt
              [⟨"2019-01-01", "08:00", "SIN", "CGK", "SQ950", "", "", "SQ"⟩,
               ⟨"2019-01-05", "12:00", "CGK", "SIN", "SQ951", "", "", "SQ"⟩] "SIN" "CGK")
      ∧ (0 < flightCnt
            [⟨"2019-01-01", "08:00", "SIN", "CGK", "SQ950", "", "", "SQ"⟩,
             ⟨"2019-01-05", "12:00", "CGK", "SIN", "SQ951", "", "", "SQ"⟩] "SIN" "CGK" →
          ∃ r ∈ FlightMap.routes (fun _ => 0)
            [⟨"2019-01-01", "08:00", "SIN", "CGK", "SQ950", "", "", "SQ"⟩,
             ⟨"2019-01-05", "12:00", "CGK", "SIN", "SQ951", "", "", "SQ"⟩],
            pairMatches r.«from» r.«to» "SIN" "CGK")) :=
  (routes_unordered_pair_merge (fun _ => 0)
      [⟨"2019-01-01", "08:00", "SIN", "CGK", "SQ950", "", "", "SQ"⟩,
       ⟨"2019-01-05", "12:00", "CGK", "SIN", "SQ951", "", "", "SQ"⟩]
      "SIN" "CGK").1 (by decide) (by decide)

/-- The running maximum in `Math.max(...counts, 1)` never drops below its
seed. -/
theorem le_foldl_max {R : Type} (countOf : R → ℕ) :
    ∀ (l : List R) (a : ℕ), a ≤ l.foldl (fun acc r => max acc (countOf r)) a := by
  intro l
  induction l with
  | nil => intro a; simp
  | cons x xs ih =>
    intro a
    calc a ≤ max a (countOf x) := le_max_left _ _
    _ ≤ xs.foldl (fun acc r => max acc (countOf r)) (max a (countOf x)) := ih _

/-- Opacity bounds and count-monotonicity for the variant-1 `routes`. -/
theorem FlightMap.routes_opacity_spec (sqrtQ : ℚ → ℚ) (flights : List FlightData) :
    (∀ r ∈ FlightMap.routes sqrtQ flights, (0.3 : ℚ) ≤ r.opacity ∧ r.opacity ≤ 1)
    ∧ (∀ r1 ∈ FlightMap.routes sqrtQ flights, ∀ r2 ∈ FlightMap.routes sqrtQ flights,
        r1.count ≤ r2.count → r1.opacity ≤ r2.opacity) := by
  simp only [FlightMap.routes, List.map_map]
  set agg := aggregate FlightMap.validAirport (FlightMap.mkRoute sqrtQ)
    FlightMap.updRoute flights with hagg
  set M : ℕ := (agg.map (fun e => e.2)).foldl (fun acc r => max acc r.count) 1 with hMdef
  have hM1 : 1 ≤ M := le_foldl_max Route.count _ 1
  have hMQ : (0 : ℚ) < (M : ℚ) := by
    have : (0 : ℕ) < M := hM1
    exact_mod_cast this
  constructor
  · intro r hr
    obtain ⟨e, he, hge⟩ := List.mem_map.mp hr
    have hop : r.opacity = min (0.3 + ((e.2.count : ℚ) / (M : ℚ)) * 0.7) 1 := by
      rw [← hge]; rfl
    have hnn : (0 : ℚ) ≤ ((e.2.count : ℚ) / (M : ℚ)) * 0.7 := by
      apply mul_nonneg
      · exact div_nonneg (Nat.cast_nonneg _) (Nat.cast_nonneg _)
      · norm_num
    constructor
    · rw [hop]
      apply le_min
      · linarith
      · norm_num
    · rw [hop]
      exact min_le_right _ _
  · intro r1 hr1 r2 hr2 hcnt
    obtain ⟨e1, he1, hge1⟩ := List.mem_map.mp hr1
    obtain ⟨e2, he2, hge2⟩ := List.mem_map.mp hr2
    have hop1 : r1.opacity = min (0.3 + ((e1.2.count : ℚ) / (M : ℚ)) * 0.7) 1 := by
      rw [← hge1]; rfl
    have hop2 : r2.opacity = min (0.3 + ((e2.2.count : ℚ) / (M : ℚ)) * 0.7) 1 := by
      rw [← hge2]; rfl
    have hc1 : r1.count = e1.2.count := by rw [← hge1]; rfl
    have hc2 : r2.count = e2.2.count := by rw [← hge2]; rfl
    rw [hc1, hc2] at hcnt
    rw [hop1, hop2]
    apply min_le_min _ (le_refl 1)
    have hdiv : (e1.2.count : ℚ) / (M : ℚ) ≤ (e2.2.count : ℚ) / (M : ℚ) := by
      gcongr
    linarith

/-- The opacity of every variant-2 route is determined by its count. -/
theorem FlightMapPins.routes_opacity_formula (flights : List FlightData) :
    ∀ r ∈ FlightMapPins.routes flights,
      r.opacity = min (0.3 + (r.count : ℚ) * 0.1) 0.9 := by
  intro r hr
  simp only [FlightMapPins.routes] at hr
  obtain ⟨e, he, hge⟩ := List.mem_map.mp hr
  have := aggregate_pred FlightMapPins.validAirport FlightMapPins.mkRoute
    FlightMapPins.updRoute
    (fun r => r.opacity = min (0.3 + (r.count : ℚ) * 0.1) 0.9)
    (fun f => by
      unfold FlightMapPins.mkRoute
      split <;> norm_num)
    (fun r f h => by
      simp [FlightMapPins.updRoute])
    flights e he
  rw [← hge]
  exact this

/-- Opacity bounds and count-monotonicity for the variant-2 `routes`. -/
theorem FlightMapPins.routes_opacity_spec_pins (flights : List FlightData) :
    (∀ r ∈ FlightMapPins.routes flights, (0.3 : ℚ) ≤ r.opacity ∧ r.opacity ≤ 1)
    ∧ (∀ r1 ∈ FlightMapPins.routes flights, ∀ r2 ∈ FlightMapPins.routes flights,
        r1.count ≤ r2.count → r1.opacity ≤ r2.opacity) := by
  constructor
  · intro r hr
    rw [FlightMapPins.routes_opacity_formula flights r hr]
    constructor
    · apply le_min
      · have : (0 : ℚ) ≤ (r.count : ℚ) * 0.1 :=
          mul_nonneg (Nat.cast_nonneg _) (by norm_num)
        linarith
      · norm_num
    · calc min (0.3 + (r.count : ℚ) * 0.1) 0.9 ≤ 0.9 := min_le_right _ _
      _ ≤ 1 := by norm_num
  · intro r1 hr1 r2 hr2 hcnt
    rw [FlightMapPins.routes_opacity_formula flights r1 hr1,
      FlightMapPins.routes_opacity_formula flights r2 hr2]
    apply min_le_min _ (le_refl _)
    have : (r1.count : ℚ) ≤ (r2.count : ℚ) := by exact_mod_cast hcnt
    nlinarith

/-- Claim C2: for every non-empty flight list, every aggregated route in
either flight-map variant has an opacity inside `[0.3, 1.0]`, and within
one aggregation a route with a larger flight count never gets a smaller
opacity.  (The non-emptiness hypothesis mirrors the claim; the property
holds for every list.) -/
theorem routes_opacity_bounded_monotone (sqrtQ : ℚ → ℚ)
    (flights : List FlightData) (_hne : flights ≠ []) :
    ((∀ r ∈ FlightMap.routes sqrtQ flights, (0.3 : ℚ) ≤ r.opacity ∧ r.opacity ≤ 1)
      ∧ (∀ r1 ∈ FlightMap.routes sqrtQ flights, ∀ r2 ∈ FlightMap.routes sqrtQ flights,
          r1.count ≤ r2.count → r1.opacity ≤ r2.opacity))
    ∧ ((∀ r ∈ FlightMapPins.routes flights, (0.3 : ℚ) ≤ r.opacity ∧ r.opacity ≤ 1)
      ∧ (∀ r1 ∈ FlightMapPins.routes flights, ∀ r2 ∈ FlightMapPins.routes flights,
          r1.count ≤ r2.count → r1.opacity ≤ r2.opacity)) :=
  ⟨FlightMap.routes_opacity_spec sqrtQ flights,
   FlightMapPins.routes_opacity_spec_pins flights⟩

/-- Witness for the C2 theorem on a concrete three-flight list with two
distinct route frequencies. -/
theorem routes_opacity_bounded_monotone_witness :
    [(⟨"2019-01-01", "08:00", "SIN", "CGK", "SQ950", "", "", "SQ"⟩ : FlightData),
     ⟨"2019-01-05", "12:00", "CGK", "SIN", "SQ951", "", "", "SQ"⟩,
     ⟨"2019-02-01", "09:00", "SIN", "BKK", "SQ972", "", "", "SQ"⟩] ≠ []
    ∧ (∀ r ∈ FlightMap.routes (fun _ => 0)
        [⟨"2019-01-01", "08:00", "SIN", "CGK", "SQ950", "", "", "SQ"⟩,
         ⟨"2019-01-05", "12:00", "CGK", "SIN", "SQ951", "", "", "SQ"⟩,
         ⟨"2019-02-01", "09:00", "SIN", "BKK", "SQ972", "", "", "SQ"⟩],
        (0.3 : ℚ) ≤ r.opacity ∧ r.opacity ≤ 1) :=
  ⟨by decide,
   (routes_opacity_bounded_monotone (fun _ => 0)
      [⟨"2019-01-01", "08:00", "SIN", "CGK", "SQ950", "", "", "SQ"⟩,
       ⟨"2019-01-05", "12:00", "CGK", "SIN", "SQ951", "", "", "SQ"⟩,
       ⟨"2019-02-01", "09:00", "SIN", "BKK", "SQ972", "", "", "SQ"⟩]
      (by decide)).1.1⟩

/-- After antimeridian adjustment the longitude delta is at most 180
degrees (for longitudes in the normal range). -/
theorem adjustLng2_bound {lng1 lng2 : ℚ} (h1 : -180 ≤ lng1) (h2 : lng1 ≤ 180)
    (h3 : -180 ≤ lng2) (h4 : lng2 ≤ 180) :
    |FlightMap.adjustLng2 lng1 lng2 - lng1| ≤ 180 := by
  unfold FlightMap.adjustLng2 FlightMap.shouldGoWestward
  have habs : |lng2 - lng1| ≤ 360 := by
    rw [abs_le]
    constructor <;> linarith
  by_cases hw : (360 - |lng2 - lng1| < |lng2 - lng1|)
  · have he : 180 < |lng2 - lng1| := by linarith
    rw [if_pos (by simpa using hw)]
    by_cases hgt : lng2 > lng1
    · rw [if_pos hgt]
      have habs2 : |lng2 - lng1| = lng2 - lng1 := abs_of_pos (by linarith)
      rw [habs2] at he habs
      rw [abs_le]
      constructor <;> linarith
    · rw [if_neg hgt]
      push_neg at hgt
      have habs2 : |lng2 - lng1| = lng1 - lng2 := by
        rw [abs_of_nonpos (by linarith)]
        ring
      rw [habs2] at he habs
      rw [abs_le]
      constructor <;> linarith
  · rw [if_neg (by simpa using hw)]
    push_neg at hw
    linarith [abs_nonneg (lng2 - lng1)]

/-- Claim C7: if the westward longitude span is strictly shorter, the
destination longitude is shifted by exactly plus or minus 360 degrees
before curve computation, and the control point longitude never drifts
more than 360 degrees from the origin longitude (given the code's
`Math.sqrt` is nonnegative). -/
theorem curve_wrap_shift_and_control_bound (sqrtQ : ℚ → ℚ) (p1 p2 : ℚ × ℚ)
    (h1 : -180 ≤ p1.2) (h2 : p1.2 ≤ 180) (h3 : -180 ≤ p2.2) (h4 : p2.2 ≤ 180)
    (hs : 0 ≤ sqrtQ (FlightMap.curveDistSq p1 p2)) :
    (FlightMap.shouldGoWestward p1.2 p2.2 = true →
      FlightMap.adjustLng2 p1.2 p2.2 = p2.2 + 360 ∨ FlightMap.adjustLng2 p1.2 p2.2 = p2.2 - 360)
    ∧ |(FlightMap.controlPoint sqrtQ p1 p2).2 - p1.2| ≤ 360 := by
  constructor
  · intro hw
    unfold FlightMap.adjustLng2
    rw [if_pos hw]
    by_cases hgt : p2.2 > p1.2
    · rw [if_pos hgt]; right; rfl
    · rw [if_neg hgt]; left; rfl
  · have hΔ : |FlightMap.adjustLng2 p1.2 p2.2 - p1.2| ≤ 180 := adjustLng2_bound h1 h2 h3 h4
    have hcf0 : (0 : ℚ) ≤ min (sqrtQ (FlightMap.curveDistSq p1 p2) * 0.15) 20 := by
      apply le_min
      · nlinarith
      · norm_num
    have hcf20 : min (sqrtQ (FlightMap.curveDistSq p1 p2) * 0.15) 20 ≤ 20 := min_le_right _ _
    unfold FlightMap.controlPoint
    simp only []
    set adj := FlightMap.adjustLng2 p1.2 p2.2 with hadj
    set cf := min (sqrtQ (FlightMap.curveDistSq p1 p2) * 0.15) 20 with hcf
    by_cases hc : |adj - p1.2| ≤ |p2.1 - p1.1|
    · have hgt : ¬ (|adj - p1.2| > |p2.1 - p1.1|) := by simpa using hc
      rw [if_neg hgt, if_pos hc]
      have hmid : (p1.2 + adj) / 2 + cf * 0.3 - p1.2 = (adj - p1.2) / 2 + cf * 0.3 := by
        ring
      rw [hmid]
      have habs := abs_add ((adj - p1.2) / 2) (cf * 0.3)
      have h5 : |(adj - p1.2) / 2| = |adj - p1.2| / 2 := by
        rw [abs_div]
        norm_num
      have h6 : |cf * 0.3| = cf * 0.3 := abs_of_nonneg (by nlinarith)
      rw [h5, h6] at habs
      calc |(adj - p1.2) / 2 + cf * 0.3| ≤ |adj - p1.2| / 2 + cf * 0.3 := habs
      _ ≤ 360 := by nlinarith
    · have hgt : |adj - p1.2| > |p2.1 - p1.1| := lt_of_not_le hc
      rw [if_pos hgt, if_neg hc]
      have hmid : (p1.2 + adj) / 2 + 0 - p1.2 = (adj - p1.2) / 2 := by ring
      rw [hmid]
      have h5 : |(adj - p1.2) / 2| = |adj - p1.2| / 2 := by
        rw [abs_div]
        norm_num
      rw [h5]
      linarith

/-- Witness for the C7 theorem at the wrapped pair (0, 170) to (0, -170). -/
theorem curve_wrap_shift_and_control_bound_witness :
    (FlightMap.shouldGoWestward ((0 : ℚ), (170 : ℚ)).2 ((0 : ℚ), (-170 : ℚ)).2 = true →
      FlightMap.adjustLng2 ((0 : ℚ), (170 : ℚ)).2 ((0 : ℚ), (-170 : ℚ)).2 = ((0 : ℚ), (-170 : ℚ)).2 + 360
      ∨ FlightMap.adjustLng2 ((0 : ℚ), (170 : ℚ)).2 ((0 : ℚ), (-170 : ℚ)).2 = ((0 : ℚ), (-170 : ℚ)).2 - 360)
    ∧ |(FlightMap.controlPoint (fun _ => 0) ((0 : ℚ), (170 : ℚ)) ((0 : ℚ), (-170 : ℚ))).2
        - ((0 : ℚ), (170 : ℚ)).2| ≤ 360 :=
  curve_wrap_shift_and_control_bound (fun _ => 0) ((0 : ℚ), (170 : ℚ))
    ((0 : ℚ), (-170 : ℚ)) (by norm_num) (by norm_num) (by norm_num) (by norm_num)
    (le_refl 0)

/-- Claim C5 (amended): for a pair at or beyond the long-haul threshold
(the code's `distance < 5` test fails), `createCurvedPath` samples
`Math.max(3, Math.min(Math.floor(distance / 10), 8))` curve segments and
returns that many points plus one — between 4 and 9 points, depending on
the distance.  (The claim's "3 to 8 points" counts the segments, not the
returned points.) -/
theorem createCurvedPath_long_haul_points (sqrtQ : ℚ → ℚ) (p1 p2 : ℚ × ℚ)
    (h : ¬ sqrtQ (FlightMap.curveDistSq p1 p2) < 5) :
    (FlightMap.createCurvedPath sqrtQ p1 p2).length
      = (max 3 (min ⌊sqrtQ (FlightMap.curveDistSq p1 p2) / 10⌋ 8)).toNat + 1
    ∧ 4 ≤ (FlightMap.createCurvedPath sqrtQ p1 p2).length
    ∧ (FlightMap.createCurvedPath sqrtQ p1 p2).length ≤ 9 := by
  have hs3 : (3 : ℤ) ≤ max 3 (min ⌊sqrtQ (FlightMap.curveDistSq p1 p2) / 10⌋ 8) :=
    le_max_left _ _
  have hs8 : max 3 (min ⌊sqrtQ (FlightMap.curveDistSq p1 p2) / 10⌋ 8) ≤ 8 :=
    max_le (by norm_num) (min_le_right _ _)
  have hlen : (FlightMap.createCurvedPath sqrtQ p1 p2).length
      = (max 3 (min ⌊sqrtQ (FlightMap.curveDistSq p1 p2) / 10⌋ 8)).toNat + 1 := by
    simp only [FlightMap.createCurvedPath]
    rw [if_neg h]
    have h2 : 2 < ((max 3 (min ⌊sqrtQ (FlightMap.curveDistSq p1 p2) / 10⌋ 8)).toNat + 1) := by
      omega
    split
    · rw [List.length_map, List.length_range]
    · next hcond =>
      exfalso
      rw [List.length_map, List.length_range] at hcond
      omega
  refine ⟨hlen, ?_, ?_⟩ <;> rw [hlen] <;> omega

/-- Claim C5 as stated is false: for the long-haul pair (0,0) to (0,100)
(geometric distance 100, with `Math.sqrt` modelled by the function that is
exactly 100 on the relevant input) the returned path has 9 points, outside
the claimed range of 3 to 8 points. -/
theorem createCurvedPath_nine_points :
    ¬ ((fun _ => (100 : ℚ))
        (FlightMap.curveDistSq ((0 : ℚ), (0 : ℚ)) ((0 : ℚ), (100 : ℚ)))) < 5
    ∧ (FlightMap.createCurvedPath (fun _ => (100 : ℚ))
        ((0 : ℚ), (0 : ℚ)) ((0 : ℚ), (100 : ℚ))).length = 9
    ∧ ¬ ((FlightMap.createCurvedPath (fun _ => (100 : ℚ))
        ((0 : ℚ), (0 : ℚ)) ((0 : ℚ), (100 : ℚ))).length ≤ 8) := by
  have hlen : (FlightMap.createCurvedPath (fun _ => (100 : ℚ))
      ((0 : ℚ), (0 : ℚ)) ((0 : ℚ), (100 : ℚ))).length = 9 := by
    simp only [FlightMap.createCurvedPath]
    rw [if_neg (by norm_num)]
    have hfloor : ⌊(100 : ℚ) / 10⌋ = 10 := by norm_num
    rw [hfloor]
    split
    · rw [List.length_map, List.length_range]
      decide
    · next hcond =>
      exfalso
      rw [List.length_map, List.length_range] at hcond
      exact hcond (by decide)
  exact ⟨by norm_num, hlen, by rw [hlen]; norm_num⟩

/-- Witness for the amended C5 theorem at the same concrete long-haul
pair. -/
theorem createCurvedPath_long_haul_points_witness :
    (FlightMap.createCurvedPath (fun _ => (100 : ℚ))
        ((0 : ℚ), (0 : ℚ)) ((0 : ℚ), (100 : ℚ))).length
      = (max 3 (min ⌊((fun _ => (100 : ℚ))
          (FlightMap.curveDistSq ((0 : ℚ), (0 : ℚ)) ((0 : ℚ), (100 : ℚ)))) / 10⌋ 8)).toNat + 1
    ∧ 4 ≤ (FlightMap.createCurvedPath (fun _ => (100 : ℚ))
        ((0 : ℚ), (0 : ℚ)) ((0 : ℚ), (100 : ℚ))).length
    ∧ (FlightMap.createCurvedPath (fun _ => (100 : ℚ))
        ((0 : ℚ), (0 : ℚ)) ((0 : ℚ), (100 : ℚ))).length ≤ 9 :=
  createCurvedPath_long_haul_points (fun _ => (100 : ℚ))
    ((0 : ℚ), (0 : ℚ)) ((0 : ℚ), (100 : ℚ)) (by norm_num)

/-- The endpoint collection of `mapBounds` only looks at each route's
first and last coordinate (and whether it has at least two). -/
theorem FlightMap.collectRouteEndpoints_congr {rs1 rs2 : List FlightMap.Route}
    (h : List.Forall₂ (fun r1 r2 =>
      r1.coordinates.getD 0 (0, 0) = r2.coordinates.getD 0 (0, 0)
      ∧ r1.coordinates.getD (r1.coordinates.length - 1) (0, 0)
          = r2.coordinates.getD (r2.coordinates.length - 1) (0, 0)
      ∧ (2 ≤ r1.coordinates.length ↔ 2 ≤ r2.coordinates.length)) rs1 rs2) :
    FlightMap.collectRouteEndpoints rs1 = FlightMap.collectRouteEndpoints rs2 := by
  unfold FlightMap.collectRouteEndpoints
  suffices haux : ∀ acc : List (ℚ × ℚ),
      rs1.foldl (fun acc r =>
        if 2 ≤ r.coordinates.length then
          acc ++ [r.coordinates.getD 0 (0, 0),
                  r.coordinates.getD (r.coordinates.length - 1) (0, 0)]
        else acc) acc
      = rs2.foldl (fun acc r =>
        if 2 ≤ r.coordinates.length then
          acc ++ [r.coordinates.getD 0 (0, 0),
                  r.coordinates.getD (r.coordinates.length - 1) (0, 0)]
        else acc) acc from haux []
  induction h with
  | nil => intro acc; rfl
  | @cons a b l1 l2 hr hrest ih =>
    intro acc
    simp only [List.foldl_cons]
    obtain ⟨h1, h2, h3⟩ := hr
    by_cases hl : 2 ≤ a.coordinates.length
    · rw [if_pos hl, if_pos (h3.mp hl), h1, h2]
      exact ih _
    · rw [if_neg hl, if_neg (fun hh => hl (h3.mpr hh))]
      exact ih _

/-- Claim C6 (amended): the padded map bounds are a function of the Route
endpoints only — replacing every route's intermediate curve samples while
keeping its first and last coordinate (and keeping it a real polyline of
at least two points) leaves `mapBounds` unchanged.  The zoom tier picked
by `zoomLevels`, by contrast, is computed from ALL route-path coordinates
including intermediate samples (see the counterexample theorem). -/
theorem mapBounds_endpoints_only (rs1 rs2 : List FlightMap.Route)
    (h : List.Forall₂ (fun r1 r2 =>
      r1.coordinates.getD 0 (0, 0) = r2.coordinates.getD 0 (0, 0)
      ∧ r1.coordinates.getD (r1.coordinates.length - 1) (0, 0)
          = r2.coordinates.getD (r2.coordinates.length - 1) (0, 0)
      ∧ (2 ≤ r1.coordinates.length ↔ 2 ≤ r2.coordinates.length)) rs1 rs2) :
    FlightMap.mapBounds rs1 = FlightMap.mapBounds rs2 := by
  have hlen : rs1.length = rs2.length := h.length_eq
  have hempty : rs1.isEmpty = rs2.isEmpty := by
    cases rs1 <;> cases rs2 <;> simp_all
  unfold FlightMap.mapBounds
  rw [hempty, FlightMap.collectRouteEndpoints_congr h]

/-- Claim C6 as stated is false: two route lists with identical endpoints
but different intermediate curve samples get different zoom tiers from
`zoomLevels` (initial zoom 6 versus 4), because `zoomLevels` folds over
every path coordinate. -/
theorem zoomLevels_uses_curve_samples :
    (([⟨"SIN-CGK", "SIN", "CGK", 1, [],
        [((0 : ℚ), (0 : ℚ)), ((0 : ℚ), (9 : ℚ))], 0.4⟩] : List FlightMap.Route).length
      = ([⟨"SIN-CGK", "SIN", "CGK", 1, [],
        [((0 : ℚ), (0 : ℚ)), ((50 : ℚ), (25 : ℚ)), ((0 : ℚ), (9 : ℚ))], 0.4⟩]
          : List FlightMap.Route).length)
    ∧ (([⟨"SIN-CGK", "SIN", "CGK", 1, [],
        [((0 : ℚ), (0 : ℚ)), ((0 : ℚ), (9 : ℚ))], 0.4⟩] : List FlightMap.Route).map
          (fun r => (r.coordinates.getD 0 (0, 0),
            r.coordinates.getD (r.coordinates.length - 1) (0, 0)))
      = ([⟨"SIN-CGK", "SIN", "CGK", 1, [],
        [((0 : ℚ), (0 : ℚ)), ((50 : ℚ), (25 : ℚ)), ((0 : ℚ), (9 : ℚ))], 0.4⟩]
          : List FlightMap.Route).map
          (fun r => (r.coordinates.getD 0 (0, 0),
            r.coordinates.getD (r.coordinates.length - 1) (0, 0))))
    ∧ FlightMap.zoomLevels
        [⟨"SIN-CGK", "SIN", "CGK", 1, [],
          [((0 : ℚ), (0 : ℚ)), ((0 : ℚ), (9 : ℚ))], 0.4⟩]
      ≠ FlightMap.zoomLevels
        [⟨"SIN-CGK", "SIN", "CGK", 1, [],
          [((0 : ℚ), (0 : ℚ)), ((50 : ℚ), (25 : ℚ)), ((0 : ℚ), (9 : ℚ))], 0.4⟩] := by
  have h1 : FlightMap.zoomLevels
      [⟨"SIN-CGK", "SIN", "CGK", 1, [],
        [((0 : ℚ), (0 : ℚ)), ((0 : ℚ), (9 : ℚ))], 0.4⟩] = ⟨5, 18, 6⟩ := by
    norm_num [FlightMap.zoomLevels, FlightMap.listMax, FlightMap.listMin, List.foldl]
  have h2 : FlightMap.zoomLevels
      [⟨"SIN-CGK", "SIN", "CGK", 1, [],
        [((0 : ℚ), (0 : ℚ)), ((50 : ℚ), (25 : ℚ)), ((0 : ℚ), (9 : ℚ))], 0.4⟩]
      = ⟨3, 18, 4⟩ := by
    norm_num [FlightMap.zoomLevels, FlightMap.listMax, FlightMap.listMin, List.foldl]
  refine ⟨rfl, by decide, ?_⟩
  rw [h1, h2]
  simp

/-- Witness for the amended C6 theorem: straightening the intermediate
sample of a curved path leaves the computed map bounds unchanged. -/
theorem mapBounds_endpoints_only_witness :
    FlightMap.mapBounds
      [⟨"SIN-CGK", "SIN", "CGK", 1, [],
        [((0 : ℚ), (0 : ℚ)), ((0 : ℚ), (9 : ℚ))], 0.4⟩]
    = FlightMap.mapBounds
      [⟨"SIN-CGK", "SIN", "CGK", 1, [],
        [((0 : ℚ), (0 : ℚ)), ((50 : ℚ), (25 : ℚ)), ((0 : ℚ), (9 : ℚ))], 0.4⟩] :=
  mapBounds_endpoints_only _ _ (List.Forall₂.cons (by decide) List.Forall₂.nil)

/-- A flight failing endpoint validation leaves the route map untouched. -/
theorem aggStep_invalid {R : Type} (valid : String → Bool) (mkNew : FlightData → R)
    (upd : R → FlightData → R) (m : List (String × R)) (f : FlightData)
    (h : valid f.origin = false ∨ valid f.destination = false) :
    aggStep valid mkNew upd m f = m := by
  rcases h with h | h <;> simp [aggStep, h]

/-- Splicing one validation-failing flight out of the list leaves the
aggregated route map unchanged. -/
theorem aggregate_splice {R : Type} (valid : String → Bool) (mkNew : FlightData → R)
    (upd : R → FlightData → R) (pre post : List FlightData) (f : FlightData)
    (h : valid f.origin = false ∨ valid f.destination = false) :
    aggregate valid mkNew upd (pre ++ f :: post)
      = aggregate valid mkNew upd (pre ++ post) := by
  unfold aggregate
  rw [List.foldl_append, List.foldl_append, List.foldl_cons,
    aggStep_invalid valid mkNew upd _ f h]

/-- First-pass step of `airports` for a flight with both codes unknown. -/
theorem FlightMap.airportsFirstPass_splice (pre post : List FlightData)
    (f : FlightData)
    (ho : FlightMap.AIRPORT_COORDINATES f.origin = none)
    (hd : FlightMap.AIRPORT_COORDINATES f.destination = none) :
    FlightMap.airportsFirstPass (pre ++ f :: post)
      = FlightMap.airportsFirstPass (pre ++ post) := by
  unfold FlightMap.airportsFirstPass
  rw [List.foldl_append, List.foldl_append, List.foldl_cons]
  congr 1
  show (FlightMap.processAirport (FlightMap.processAirport _ f.origin) f.destination,
      _) = _
  rw [show ∀ m, FlightMap.processAirport m f.origin = m by
      intro m; unfold FlightMap.processAirport; rw [ho],
    show ∀ m, FlightMap.processAirport m f.destination = m by
      intro m; unfold FlightMap.processAirport; rw [hd]]
  rw [ho]

/-- Claim C8 (amended): a flight with an unknown origin or destination
code contributes to no `Route` (it is skipped and aggregation continues
over the rest), and a flight with BOTH codes unknown also contributes to
no `Airport`; an endpoint whose own code is known, however, still
increments that airport's flight count even when the other endpoint is
unknown (see the counterexample theorem). -/
theorem invalid_flight_skipped (sqrtQ : ℚ → ℚ) (pre post : List FlightData)
    (f : FlightData)
    (h : FlightMap.validAirport f.origin = false
      ∨ FlightMap.validAirport f.destination = false) :
    FlightMap.routes sqrtQ (pre ++ f :: post) = FlightMap.routes sqrtQ (pre ++ post)
    ∧ (FlightMap.validAirport f.origin = false →
        FlightMap.validAirport f.destination = false →
        FlightMap.airports sqrtQ (pre ++ f :: post)
          = FlightMap.airports sqrtQ (pre ++ post)) := by
  have hroutes : FlightMap.routes sqrtQ (pre ++ f :: post)
      = FlightMap.routes sqrtQ (pre ++ post) := by
    unfold FlightMap.routes
    rw [aggregate_splice _ _ _ pre post f h]
  refine ⟨hroutes, fun ho hd => ?_⟩
  have ho' : FlightMap.AIRPORT_COORDINATES f.origin = none := by
    unfold FlightMap.validAirport at ho
    exact Option.not_isSome_iff_eq_none.mp (by simp [ho])
  have hd' : FlightMap.AIRPORT_COORDINATES f.destination = none := by
    unfold FlightMap.validAirport at hd
    exact Option.not_isSome_iff_eq_none.mp (by simp [hd])
  unfold FlightMap.airports
  rw [FlightMap.airportsFirstPass_splice pre post f ho' hd', hroutes]

/-- Claim C8 as stated is false: a flight from SIN to the unknown code
ZZZ reaches no `Route`, but it does put SIN (with flight count 1) into the
`airports` output, which is empty without it. -/
theorem airports_counts_unknown_partner :
    FlightMap.routes (fun _ => 0)
      [⟨"2019-03-01", "07:00", "SIN", "ZZZ", "XX1", "", "", "XX"⟩]
      = FlightMap.routes (fun _ => 0) []
    ∧ FlightMap.airports (fun _ => 0) [] = []
    ∧ FlightMap.airports (fun _ => 0)
        [⟨"2019-03-01", "07:00", "SIN", "ZZZ", "XX1", "", "", "XX"⟩] ≠ [] := by
  refine ⟨by decide, by decide, by decide⟩

/-- Witness for the amended C8 theorem: a flight between two unknown
codes contributes to neither routes nor airports. -/
theorem invalid_flight_skipped_witness :
    FlightMap.routes (fun _ => 0)
      ([] ++ (⟨"2019-03-01", "07:00", "XXX", "ZZZ", "XX1", "", "", "XX"⟩ : FlightData)
        :: []) = FlightMap.routes (fun _ => 0) ([] ++ [])
    ∧ FlightMap.airports (fun _ => 0)
        ([] ++ (⟨"2019-03-01", "07:00", "XXX", "ZZZ", "XX1", "", "", "XX"⟩ : FlightData)
          :: []) = FlightMap.airports (fun _ => 0) ([] ++ []) :=
  ⟨(invalid_flight_skipped (fun _ => 0) [] []
      ⟨"2019-03-01", "07:00", "XXX", "ZZZ", "XX1", "", "", "XX"⟩ (Or.inl (by decide))).1,
   (invalid_flight_skipped (fun _ => 0) [] []
      ⟨"2019-03-01", "07:00", "XXX", "ZZZ", "XX1", "", "", "XX"⟩ (Or.inl (by decide))).2
     (by decide) (by decide)⟩

theorem MiniChat.splitNl_ne_nil (cs : List Char) : MiniChat.splitNl cs ≠ [] := by
  induction cs with
  | nil => simp [MiniChat.splitNl]
  | cons c cs ih =>
    unfold MiniChat.splitNl
    by_cases hc : c = '\n'
    · simp [hc]
    · rw [if_neg hc]
      cases h : MiniChat.splitNl cs with
      | nil => simp
      | cons l ls => simp

theorem getLastD_irrel {α : Type} {l : List α} (h : l ≠ []) (d1 d2 : α) :
    l.getLastD d1 = l.getLastD d2 := by
  rw [List.getLastD_eq_getLast?, List.getLastD_eq_getLast?]
  cases hl : l.getLast? with
  | none => exact absurd (List.getLast?_eq_none_iff.mp hl) h
  | some x => rfl

theorem MiniChat.splitNl_cons_nl (t : List Char) :
    MiniChat.splitNl ('\n' :: t) = [] :: MiniChat.splitNl t := by
  simp [MiniChat.splitNl]

theorem MiniChat.splitNl_cons_ne {c : Char} (hc : ¬ c = '\n') {t l : List Char}
    {ls : List (List Char)} (h : MiniChat.splitNl t = l :: ls) :
    MiniChat.splitNl (c :: t) = (c :: l) :: ls := by
  unfold MiniChat.splitNl
  rw [if_neg hc, h]

theorem MiniChat.splitNl_append (a b : List Char) :
    MiniChat.splitNl (a ++ b)
      = (MiniChat.splitNl a).dropLast
        ++ ((MiniChat.splitNl a).getLastD [] ++ (MiniChat.splitNl b).headD [])
          :: (MiniChat.splitNl b).tail := by
  induction a with
  | nil =>
    simp only [List.nil_append, MiniChat.splitNl]
    cases h : MiniChat.splitNl b with
    | nil => exact absurd h (MiniChat.splitNl_ne_nil b)
    | cons l ls => simp
  | cons c cs ih =>
    by_cases hc : c = '\n'
    · subst hc
      rw [show ('\n' :: cs) ++ b = '\n' :: (cs ++ b) from rfl,
        MiniChat.splitNl_cons_nl, MiniChat.splitNl_cons_nl, ih]
      cases h : MiniChat.splitNl cs with
      | nil => exact absurd h (MiniChat.splitNl_ne_nil cs)
      | cons l ls =>
        simp [List.getLastD_eq_getLast?, List.getLast?_cons_cons,
          List.dropLast_cons₂]
    · cases h0 : MiniChat.splitNl cs with
      | nil => exact absurd h0 (MiniChat.splitNl_ne_nil cs)
      | cons hd0 t0 =>
        rw [h0] at ih
        cases ht0 : t0 with
        | nil =>
          subst ht0
          have hsing : ([hd0] : List (List Char)).getLastD [] = hd0 := by
            simp [List.getLastD_eq_getLast?]
          simp only [List.dropLast_single, hsing, List.nil_append] at ih
          cases hb : MiniChat.splitNl b with
          | nil => exact absurd hb (MiniChat.splitNl_ne_nil b)
          | cons lb lsb =>
            rw [hb] at ih
            simp only [List.headD_cons, List.tail_cons] at ih
            rw [show (c :: cs) ++ b = c :: (cs ++ b) from rfl,
              MiniChat.splitNl_cons_ne hc ih,
              MiniChat.splitNl_cons_ne hc h0]
            simp [List.getLastD_eq_getLast?]
        | cons x xs =>
          subst ht0
          rw [show (c :: cs) ++ b = c :: (cs ++ b) from rfl]
          rw [List.dropLast_cons_of_ne_nil (by simp : (x :: xs) ≠ []),
            List.getLastD_cons,
            getLastD_irrel (by simp : (x :: xs) ≠ []) hd0 []] at ih
          rw [List.cons_append] at ih
          rw [MiniChat.splitNl_cons_ne hc ih,
            MiniChat.splitNl_cons_ne hc h0]
          have hg : ((c :: hd0) :: x :: xs).getLastD []
              = (x :: xs).getLastD [] := by
            rw [List.getLastD_cons]
            exact getLastD_irrel (by simp) (c :: hd0) []
          rw [hg, List.dropLast_cons_of_ne_nil (by simp : (x :: xs) ≠ [])]
          simp

theorem MiniChat.splitNl_no_nl {cs : List Char} (h : '\n' ∉ cs) :
    MiniChat.splitNl cs = [cs] := by
  induction cs with
  | nil => simp [MiniChat.splitNl]
  | cons c cs ih =>
    have hc : ¬ c = '\n' := fun hh => h (by simp [hh])
    have ht : '\n' ∉ cs := fun hh => h (by simp [hh])
    rw [MiniChat.splitNl_cons_ne hc (ih ht)]

theorem MiniChat.splitNl_pieces {cs : List Char} :
    ∀ l ∈ MiniChat.splitNl cs, '\n' ∉ l := by
  induction cs with
  | nil => simp [MiniChat.splitNl]
  | cons c cs ih =>
    by_cases hc : c = '\n'
    · subst hc
      rw [MiniChat.splitNl_cons_nl]
      intro l hl
      rcases List.mem_cons.mp hl with h | h
      · simp [h]
      · exact ih l h
    · cases h0 : MiniChat.splitNl cs with
      | nil => exact absurd h0 (MiniChat.splitNl_ne_nil cs)
      | cons hd0 t0 =>
        rw [MiniChat.splitNl_cons_ne hc h0]
        intro l hl
        rcases List.mem_cons.mp hl with h | h
        · subst h
          intro hmem
          rcases List.mem_cons.mp hmem with h' | h'
          · exact hc h'.symm
          · exact ih hd0 (h0 ▸ List.mem_cons_self hd0 t0) h'
        · exact ih l (h0 ▸ List.mem_cons.mpr (Or.inr h))

theorem str_append_empty (s : String) : s ++ "" = s :=
  str_ext (by rw [String.data_append]; simp)

theorem str_empty_append (s : String) : "" ++ s = s :=
  str_ext (by rw [String.data_append]; simp)

theorem str_append_assoc (a b c : String) : (a ++ b) ++ c = a ++ (b ++ c) :=
  str_ext (by simp [String.data_append, List.append_assoc])

theorem strJoin_cons (c : String) (cs : List String) :
    String.join (c :: cs) = c ++ String.join cs := by
  have haux : ∀ (l : List String) (a : String),
      l.foldl (fun r s => r ++ s) a = a ++ l.foldl (fun r s => r ++ s) "" := by
    intro l
    induction l with
    | nil => intro a; simp [List.foldl_nil, str_append_empty]
    | cons x xs ih =>
      intro a
      simp only [List.foldl_cons]
      rw [ih (a ++ x), ih ("" ++ x), str_empty_append, str_append_assoc]
  show (c :: cs).foldl (fun r s => r ++ s) "" = c ++ cs.foldl (fun r s => r ++ s) ""
  rw [List.foldl_cons, str_empty_append, haux]

theorem MiniChat.splitLines_ne_nil (s : String) : MiniChat.splitLines s ≠ [] := by
  unfold MiniChat.splitLines
  intro h
  exact MiniChat.splitNl_ne_nil s.data (List.map_eq_nil_iff.mp h)

theorem MiniChat.splitLines_getLastD (s : String) :
    (MiniChat.splitLines s).getLastD ""
      = String.mk ((MiniChat.splitNl s.data).getLastD []) := by
  unfold MiniChat.splitLines
  rw [List.getLastD_eq_getLast?, List.getLastD_eq_getLast?, List.getLast?_map]
  cases h : (MiniChat.splitNl s.data).getLast? with
  | none => exact absurd (List.getLast?_eq_none_iff.mp h) (MiniChat.splitNl_ne_nil s.data)
  | some x => rfl

theorem MiniChat.splitLines_headD (s : String) :
    (MiniChat.splitLines s).headD ""
      = String.mk ((MiniChat.splitNl s.data).headD []) := by
  unfold MiniChat.splitLines
  rw [show ∀ (l : List String) (d : String), l.headD d = l.head?.getD d from
    by intro l d; cases l <;> rfl]
  rw [show ∀ (l : List (List Char)) (d : List Char), l.headD d = l.head?.getD d from
    by intro l d; cases l <;> rfl]
  rw [List.head?_map]
  cases h : (MiniChat.splitNl s.data).head? with
  | none => exact absurd (by simpa using h) (MiniChat.splitNl_ne_nil s.data)
  | some x => rfl

theorem MiniChat.splitLines_append (a b : String) :
    MiniChat.splitLines (a ++ b)
      = (MiniChat.splitLines a).dropLast
        ++ ((MiniChat.splitLines a).getLastD "" ++ (MiniChat.splitLines b).headD "")
          :: (MiniChat.splitLines b).tail := by
  have hlast := MiniChat.splitLines_getLastD a
  have hhead := MiniChat.splitLines_headD b
  rw [hlast, hhead]
  unfold MiniChat.splitLines
  rw [String.data_append, MiniChat.splitNl_append]
  rw [List.map_append, List.map_cons, List.map_dropLast, List.map_tail]
  rfl

theorem MiniChat.splitLines_no_nl {s : String} (h : '\n' ∉ s.data) :
    MiniChat.splitLines s = [s] := by
  unfold MiniChat.splitLines
  rw [MiniChat.splitNl_no_nl h]
  rfl

theorem MiniChat.lastLine_no_nl (s : String) :
    '\n' ∉ ((MiniChat.splitLines s).getLastD "").data := by
  rw [MiniChat.splitLines_getLastD]
  show '\n' ∉ (MiniChat.splitNl s.data).getLastD []
  have hne := MiniChat.splitNl_ne_nil s.data
  cases h : MiniChat.splitNl s.data with
  | nil => exact absurd h hne
  | cons l ls =>
    have hmem : (l :: ls).getLastD [] ∈ l :: ls := by
      rw [List.getLastD_eq_getLast?]
      cases hg : (l :: ls).getLast? with
      | none => simp at hg
      | some x =>
        simp only [Option.getD_some]
        exact List.mem_of_mem_getLast? hg
    exact MiniChat.splitNl_pieces _ (by rw [h]; exact hmem)

theorem getLastD_append_right {α : Type} (l1 : List α) {l2 : List α} (d : α)
    (h : l2 ≠ []) : (l1 ++ l2).getLastD d = l2.getLastD d := by
  rw [List.getLastD_eq_getLast?, List.getLastD_eq_getLast?,
    List.getLast?_append_of_ne_nil l1 h]

theorem MiniChat.processLine_buffer_set (p : String → Option String) (now : ℕ)
    (st : MiniChat.StreamAcc) (l X : String) :
    MiniChat.processLine p now { st with buffer := X } l
      = { MiniChat.processLine p now st l with buffer := X } := by
  unfold MiniChat.processLine
  split
  · rfl
  · split
    · rfl
    · split
      · rfl
      · rfl

theorem MiniChat.processLines_buffer_set (p : String → Option String) (now : ℕ) :
    ∀ (lines : List String) (st : MiniChat.StreamAcc) (X : String),
    lines.foldl (MiniChat.processLine p now) { st with buffer := X }
      = { lines.foldl (MiniChat.processLine p now) st with buffer := X } := by
  intro lines
  induction lines with
  | nil => intro st X; rfl
  | cons l ls ih =>
    intro st X
    rw [List.foldl_cons, List.foldl_cons, MiniChat.processLine_buffer_set, ih]

theorem MiniChat.processLines_buffer (p : String → Option String) (now : ℕ)
    (lines : List String) (st : MiniChat.StreamAcc) :
    (lines.foldl (MiniChat.processLine p now) st).buffer = st.buffer := by
  have h := MiniChat.processLines_buffer_set p now lines st st.buffer
  rw [show ({ st with buffer := st.buffer } : MiniChat.StreamAcc) = st from rfl] at h
  rw [h]

/-- The chunked read loop equals processing all complete lines of the
accumulated text, keeping the final partial line in the buffer. -/
theorem MiniChat.processChunks_decomp (p : String → Option String) (now : ℕ) :
    ∀ (chunks : List String) (st : MiniChat.StreamAcc), '\n' ∉ st.buffer.data →
    chunks.foldl (MiniChat.processChunk p now) st
      = { (MiniChat.splitLines (st.buffer ++ String.join chunks)).dropLast.foldl
            (MiniChat.processLine p now) st with
          buffer := (MiniChat.splitLines (st.buffer ++ String.join chunks)).getLastD "" } := by
  intro chunks
  induction chunks with
  | nil =>
    intro st h
    rw [show String.join [] = "" from rfl, str_append_empty,
      MiniChat.splitLines_no_nl h, List.dropLast_single, List.foldl_nil,
      show ([st.buffer] : List String).getLastD "" = st.buffer by
        simp [List.getLastD_eq_getLast?]]
    rfl
  | cons c cs ih =>
    intro st h
    rw [List.foldl_cons]
    have hchunk : MiniChat.processChunk p now st c
        = (MiniChat.splitLines (st.buffer ++ c)).dropLast.foldl (MiniChat.processLine p now)
            { st with buffer := (MiniChat.splitLines (st.buffer ++ c)).getLastD "" } := rfl
    have hb1 : (MiniChat.processChunk p now st c).buffer
        = (MiniChat.splitLines (st.buffer ++ c)).getLastD "" := by
      rw [hchunk, MiniChat.processLines_buffer]
    have hnl1 : '\n' ∉ (MiniChat.processChunk p now st c).buffer.data := by
      rw [hb1]
      exact MiniChat.lastLine_no_nl _
    rw [ih _ hnl1, hb1, hchunk, MiniChat.processLines_buffer_set,
      MiniChat.processLines_buffer_set]
    -- text decomposition
    have hL : '\n' ∉ ((MiniChat.splitLines (st.buffer ++ c)).getLastD "").data :=
      MiniChat.lastLine_no_nl _
    have hsplitL := MiniChat.splitLines_append
      ((MiniChat.splitLines (st.buffer ++ c)).getLastD "") (String.join cs)
    rw [MiniChat.splitLines_no_nl hL, List.dropLast_single,
      show ([((MiniChat.splitLines (st.buffer ++ c)).getLastD "")] : List String).getLastD ""
          = (MiniChat.splitLines (st.buffer ++ c)).getLastD "" by
        simp [List.getLastD_eq_getLast?],
      List.nil_append] at hsplitL
    have hkey : MiniChat.splitLines (st.buffer ++ String.join (c :: cs))
        = (MiniChat.splitLines (st.buffer ++ c)).dropLast
          ++ MiniChat.splitLines
              ((MiniChat.splitLines (st.buffer ++ c)).getLastD "" ++ String.join cs) := by
      rw [strJoin_cons, ← str_append_assoc, MiniChat.splitLines_append, hsplitL]
    rw [hkey,
      List.dropLast_append_of_ne_nil _ (MiniChat.splitLines_ne_nil _),
      getLastD_append_right _ _ (MiniChat.splitLines_ne_nil _),
      List.foldl_append]
    simp only [MiniChat.processLines_buffer_set]

theorem MiniChat.processLine_content (p : String → Option String) (now : ℕ)
    (st : MiniChat.StreamAcc) (l : String) :
    (MiniChat.processLine p now st l).currentAssistantContent
      = st.currentAssistantContent ++ MiniChat.lineDelta p l := by
  unfold MiniChat.processLine MiniChat.lineDelta
  split
  · exact (str_append_empty _).symm
  · split
    · next heq => rw [heq]; exact (str_append_empty _).symm
    · next content heq =>
      rw [heq]
      split
      · next hc => rw [hc]; exact (str_append_empty _).symm
      · rfl

theorem MiniChat.processLines_content (p : String → Option String) (now : ℕ) :
    ∀ (lines : List String) (st : MiniChat.StreamAcc),
    (lines.foldl (MiniChat.processLine p now) st).currentAssistantContent
      = st.currentAssistantContent ++ String.join (lines.map (MiniChat.lineDelta p)) := by
  intro lines
  induction lines with
  | nil => intro st; exact (str_append_empty _).symm
  | cons l ls ih =>
    intro st
    rw [List.foldl_cons, ih, MiniChat.processLine_content, List.map_cons,
      strJoin_cons, str_append_assoc]

theorem MiniChat.setLastContent_concat (M : List MiniChat.ChatMessage)
    (x : MiniChat.ChatMessage) (c : String) :
    MiniChat.setLastContent (M ++ [x]) c = M ++ [{ x with content := c }] := by
  unfold MiniChat.setLastContent
  rw [List.dropLast_concat, List.getLast?_concat]
  rfl

theorem MiniChat.processLine_added (p : String → Option String) (now : ℕ)
    (st : MiniChat.StreamAcc) (l : String) (M : List MiniChat.ChatMessage)
    (h1 : st.assistantMessageAdded = true)
    (h2 : st.messages
      = M ++ [⟨MiniChat.Role.assistant, st.currentAssistantContent, some now⟩]) :
    (MiniChat.processLine p now st l).assistantMessageAdded = true
    ∧ (MiniChat.processLine p now st l).messages
        = M ++ [⟨MiniChat.Role.assistant,
            (MiniChat.processLine p now st l).currentAssistantContent, some now⟩] := by
  unfold MiniChat.processLine
  split
  · exact ⟨h1, h2⟩
  · split
    · exact ⟨h1, h2⟩
    · split
      · exact ⟨h1, h2⟩
      · refine ⟨rfl, ?_⟩
        show MiniChat.setLastContent st.messages _ = _
        rw [h2, MiniChat.setLastContent_concat]

theorem MiniChat.processLines_added (p : String → Option String) (now : ℕ) :
    ∀ (lines : List String) (st : MiniChat.StreamAcc) (M : List MiniChat.ChatMessage),
    st.assistantMessageAdded = true →
    st.messages = M ++ [⟨MiniChat.Role.assistant, st.currentAssistantContent, some now⟩] →
    (lines.foldl (MiniChat.processLine p now) st).assistantMessageAdded = true
    ∧ (lines.foldl (MiniChat.processLine p now) st).messages
        = M ++ [⟨MiniChat.Role.assistant,
            (lines.foldl (MiniChat.processLine p now) st).currentAssistantContent,
            some now⟩] := by
  intro lines
  induction lines with
  | nil => intro st M h1 h2; exact ⟨h1, h2⟩
  | cons l ls ih =>
    intro st M h1 h2
    rw [List.foldl_cons]
    obtain ⟨h1', h2'⟩ := MiniChat.processLine_added p now st l M h1 h2
    exact ih _ M h1' h2'

theorem MiniChat.processLine_start (p : String → Option String) (now : ℕ)
    (st : MiniChat.StreamAcc) (l : String)
    (h1 : st.assistantMessageAdded = false) :
    MiniChat.processLine p now st l = st
    ∨ ((MiniChat.processLine p now st l).assistantMessageAdded = true
      ∧ (MiniChat.processLine p now st l).messages
          = st.messages ++ [⟨MiniChat.Role.assistant,
              (MiniChat.processLine p now st l).currentAssistantContent, some now⟩]) := by
  unfold MiniChat.processLine
  split
  · exact Or.inl rfl
  · split
    · exact Or.inl rfl
    · split
      · exact Or.inl rfl
      · split
        · next hcond => rw [h1] at hcond; exact absurd hcond (by simp)
        · right
          refine ⟨rfl, ?_⟩
          show MiniChat.setLastContent
              (st.messages ++ [⟨MiniChat.Role.assistant, "", some now⟩]) _ = _
          rw [MiniChat.setLastContent_concat]

theorem MiniChat.processLines_start (p : String → Option String) (now : ℕ) :
    ∀ (lines : List String) (st : MiniChat.StreamAcc),
    st.assistantMessageAdded = false →
    ((lines.foldl (MiniChat.processLine p now) st).assistantMessageAdded = false
      ∧ (lines.foldl (MiniChat.processLine p now) st).messages = st.messages
      ∧ (lines.foldl (MiniChat.processLine p now) st).currentAssistantContent
          = st.currentAssistantContent)
    ∨ ((lines.foldl (MiniChat.processLine p now) st).assistantMessageAdded = true
      ∧ (lines.foldl (MiniChat.processLine p now) st).messages
          = st.messages ++ [⟨MiniChat.Role.assistant,
              (lines.foldl (MiniChat.processLine p now) st).currentAssistantContent,
              some now⟩]) := by
  intro lines
  induction lines with
  | nil => intro st h1; exact Or.inl ⟨h1, rfl, rfl⟩
  | cons l ls ih =>
    intro st h1
    rw [List.foldl_cons]
    rcases MiniChat.processLine_start p now st l h1 with hskip | ⟨ha, hm⟩
    · rw [hskip]
      exact ih st h1
    · right
      exact MiniChat.processLines_added p now ls _ st.messages ha hm

/-- Claim C4: for every way of splitting the streamed body into chunks,
the assembled assistant content equals the in-order concatenation of the
delta contents of every complete newline-terminated line of the stream
(blank or unparseable lines contribute nothing), and the chunked
incremental parse — which retains the partial trailing line across reads —
produces exactly the same state as parsing the whole concatenated stream
text in one read. -/
theorem stream_incremental_parse_equiv (p : String → Option String) (now : ℕ)
    (msgs : List MiniChat.ChatMessage) (chunks : List String) :
    MiniChat.processStream p now msgs chunks
      = MiniChat.processStream p now msgs [String.join chunks]
    ∧ (MiniChat.processStream p now msgs chunks).currentAssistantContent
      = String.join (((MiniChat.splitLines (String.join chunks)).dropLast).map
          (MiniChat.lineDelta p)) := by
  have hinit : '\n' ∉ ("" : String).data := by simp
  have h1 := MiniChat.processChunks_decomp p now chunks
    ⟨"", "", false, msgs⟩ hinit
  have h2 := MiniChat.processChunks_decomp p now [String.join chunks]
    ⟨"", "", false, msgs⟩ hinit
  have hjoin1 : String.join [String.join chunks] = String.join chunks := by
    rw [strJoin_cons, show String.join [] = "" from rfl, str_append_empty]
  constructor
  · show chunks.foldl (MiniChat.processChunk p now) ⟨"", "", false, msgs⟩
      = [String.join chunks].foldl (MiniChat.processChunk p now) ⟨"", "", false, msgs⟩
    rw [h1, h2, hjoin1]
  · show (chunks.foldl (MiniChat.processChunk p now)
        ⟨"", "", false, msgs⟩).currentAssistantContent = _
    rw [h1]
    show ((MiniChat.splitLines ("" ++ String.join chunks)).dropLast.foldl
        (MiniChat.processLine p now) ⟨"", "", false, msgs⟩).currentAssistantContent = _
    rw [MiniChat.processLines_content]
    simp only [str_empty_append, String.join]

/-- Claim C3: if the streaming request fails and the assistant received no
visible text (the accumulated content is all whitespace, in particular
empty), the conversation ends with the user message followed by exactly
one witty fallback assistant message — never zero and never more than one;
if real partial content was received, it is left exactly as delivered. -/
theorem sendMessage_failure_fallback (p : String → Option String) (now : ℕ)
    (msgs : List MiniChat.ChatMessage) (input : String) (chunks : List String)
    (k : ℕ) (hinput : MiniChat.isBlank input = false) :
    (MiniChat.isBlank (MiniChat.processStream p now
          (msgs ++ [⟨MiniChat.Role.user, input, some now⟩])
          chunks).currentAssistantContent = true →
      MiniChat.sendMessage p now msgs input (MiniChat.StreamOutcome.failure chunks k)
        = msgs ++ [⟨MiniChat.Role.user, input, some now⟩,
            ⟨MiniChat.Role.assistant, MiniChat.getRandomWittyMessage k, some now⟩])
    ∧ (MiniChat.isBlank (MiniChat.processStream p now
          (msgs ++ [⟨MiniChat.Role.user, input, some now⟩])
          chunks).currentAssistantContent = false →
      MiniChat.sendMessage p now msgs input (MiniChat.StreamOutcome.failure chunks k)
        = msgs ++ [⟨MiniChat.Role.user, input, some now⟩,
            ⟨MiniChat.Role.assistant,
              (MiniChat.processStream p now
                (msgs ++ [⟨MiniChat.Role.user, input, some now⟩])
                chunks).currentAssistantContent, some now⟩]) := by
  have hinit : '\n' ∉ ("" : String).data := by simp
  have hdec := MiniChat.processChunks_decomp p now chunks
    ⟨"", "", false, msgs ++ [⟨MiniChat.Role.user, input, some now⟩]⟩ hinit
  have hsend : MiniChat.sendMessage p now msgs input
      (MiniChat.StreamOutcome.failure chunks k)
      = (if ¬(MiniChat.processStream p now
            (msgs ++ [⟨MiniChat.Role.user, input, some now⟩])
            chunks).assistantMessageAdded then
          (MiniChat.processStream p now
            (msgs ++ [⟨MiniChat.Role.user, input, some now⟩]) chunks).messages
            ++ [⟨MiniChat.Role.assistant, MiniChat.getRandomWittyMessage k, some now⟩]
        else if MiniChat.isBlank (MiniChat.processStream p now
            (msgs ++ [⟨MiniChat.Role.user, input, some now⟩])
            chunks).currentAssistantContent then
          MiniChat.setLastContent
            (MiniChat.processStream p now
              (msgs ++ [⟨MiniChat.Role.user, input, some now⟩]) chunks).messages
            (MiniChat.getRandomWittyMessage k)
        else (MiniChat.processStream p now
            (msgs ++ [⟨MiniChat.Role.user, input, some now⟩]) chunks).messages) := by
    unfold MiniChat.sendMessage
    rw [if_neg (by simp [hinput])]
  have hstart := MiniChat.processLines_start p now
    (MiniChat.splitLines
      ("" ++ String.join chunks)).dropLast
    ⟨"", "", false, msgs ++ [⟨MiniChat.Role.user, input, some now⟩]⟩ rfl
  have hadded : (MiniChat.processStream p now
      (msgs ++ [⟨MiniChat.Role.user, input, some now⟩]) chunks).assistantMessageAdded
      = ((MiniChat.splitLines ("" ++ String.join chunks)).dropLast.foldl
          (MiniChat.processLine p now)
          ⟨"", "", false, msgs ++ [⟨MiniChat.Role.user, input, some now⟩]⟩).assistantMessageAdded := by
    show (chunks.foldl (MiniChat.processChunk p now) _).assistantMessageAdded = _
    rw [hdec]
  have hmessages : (MiniChat.processStream p now
      (msgs ++ [⟨MiniChat.Role.user, input, some now⟩]) chunks).messages
      = ((MiniChat.splitLines ("" ++ String.join chunks)).dropLast.foldl
          (MiniChat.processLine p now)
          ⟨"", "", false, msgs ++ [⟨MiniChat.Role.user, input, some now⟩]⟩).messages := by
    show (chunks.foldl (MiniChat.processChunk p now) _).messages = _
    rw [hdec]
  have hcontent : (MiniChat.processStream p now
      (msgs ++ [⟨MiniChat.Role.user, input, some now⟩]) chunks).currentAssistantContent
      = ((MiniChat.splitLines ("" ++ String.join chunks)).dropLast.foldl
          (MiniChat.processLine p now)
          ⟨"", "", false, msgs ++ [⟨MiniChat.Role.user, input, some now⟩]⟩).currentAssistantContent := by
    show (chunks.foldl (MiniChat.processChunk p now) _).currentAssistantContent = _
    rw [hdec]
  rcases hstart with ⟨ha, hm, hc⟩ | ⟨ha, hm⟩
  · -- nothing was ever added: the fallback is appended
    constructor
    · intro hblank
      rw [hsend, if_pos (by rw [hadded, ha]; simp), hmessages, hm]
      simp
    · intro hblank
      rw [hcontent, hc] at hblank
      simp [MiniChat.isBlank] at hblank
  · -- an assistant message exists
    constructor
    · intro hblank
      rw [hsend, if_neg (by rw [hadded, ha]; simp), if_pos hblank,
        hmessages, hm, ← hcontent, MiniChat.setLastContent_concat]
      simp
    · intro hblank
      rw [hsend, if_neg (by rw [hadded, ha]; simp), if_neg (by rw [hblank]; simp),
        hmessages, hm, ← hcontent]
      simp

/-- Witness for `sendMessage_failure_fallback`: a failed stream with no
chunks after the user message "hi" ends in exactly the user message plus
one witty fallback. -/
theorem sendMessage_failure_fallback_witness :
    MiniChat.isBlank "hi" = false
    ∧ MiniChat.sendMessage (fun _ => none) 0 [] "hi"
        (MiniChat.StreamOutcome.failure [] 0)
      = [⟨MiniChat.Role.user, "hi", some 0⟩,
         ⟨MiniChat.Role.assistant, MiniChat.getRandomWittyMessage 0, some 0⟩] :=
  ⟨by decide,
   (sendMessage_failure_fallback (fun _ => none) 0 [] "hi" [] 0 (by decide)).1
     (by decide)⟩

/-- Claim C9: when the chatMessages storage notification delivers a parsed
array from a peer tab, the receiving tab adopts exactly that array (so a
message stored once appears exactly once), and the chat is opened exactly
when the array holds a user message not already known locally by
role+content+timestamp identity. -/
theorem storage_sync_adopts_peer_list (st : MiniChat.TabState)
    (newMessages : List MiniChat.ChatMessage) :
    (MiniChat.handleChatMessagesChange st newMessages).messages = newMessages
    ∧ (∀ m : MiniChat.ChatMessage, newMessages.count m = 1 →
        ((MiniChat.handleChatMessagesChange st newMessages).messages).count m = 1)
    ∧ (MiniChat.handleChatMessagesChange st newMessages).isChatOpen
        = (newMessages.any (fun msg => msg.role = MiniChat.Role.user
            && !MiniChat.knownLocally st.messages msg) || st.isChatOpen) := by
  have hmsg : (MiniChat.handleChatMessagesChange st newMessages).messages
      = newMessages := by
    unfold MiniChat.handleChatMessagesChange
    split <;> rfl
  have hbool : ∀ (c b : Bool), (if c = true then true else b) = (c || b) := by
    intro c b; cases c <;> simp
  refine ⟨hmsg, fun m h => by rw [hmsg]; exact h, ?_⟩
  simp only [MiniChat.handleChatMessagesChange]
  split <;> exact hbool _ _

/-- Witness for `storage_sync_adopts_peer_list`: a tab with an empty local
list adopts the peer array, and the single user message appears exactly
once. -/
theorem storage_sync_adopts_peer_list_witness :
    (MiniChat.handleChatMessagesChange ⟨[], false, true, false⟩
        [⟨MiniChat.Role.user, "hello", some 5⟩]).messages
      = [⟨MiniChat.Role.user, "hello", some 5⟩]
    ∧ ((MiniChat.handleChatMessagesChange ⟨[], false, true, false⟩
        [⟨MiniChat.Role.user, "hello", some 5⟩]).messages).count
        ⟨MiniChat.Role.user, "hello", some 5⟩ = 1 :=
  ⟨(storage_sync_adopts_peer_list ⟨[], false, true, false⟩
      [⟨MiniChat.Role.user, "hello", some 5⟩]).1,
   (storage_sync_adopts_peer_list ⟨[], false, true, false⟩
      [⟨MiniChat.Role.user, "hello", some 5⟩]).2.1
     ⟨MiniChat.Role.user, "hello", some 5⟩ (by decide)⟩

/-- Claim C10: the value persisted to the chatMessages key never contains
an assistant message whose content equals a witty fallback, and every kept
(index, message) pair whose message is a user message is not one whose
immediate successor in the source list is such a witty assistant
message. -/
theorem save_filters_witty (messages : List MiniChat.ChatMessage) :
    (∀ m ∈ MiniChat.saveMessagesToStorage messages,
      m.role = MiniChat.Role.assistant →
        MiniChat.WITTY_MESSAGES.contains m.content = false)
    ∧ (∀ p ∈ (messages.enum).filter
          (fun p => !MiniChat.isWittyMessage messages p.2 p.1),
        p.2.role = MiniChat.Role.user → p.1 + 1 < messages.length →
          ¬((messages.getD (p.1 + 1) ⟨MiniChat.Role.system, "", none⟩).role
                = MiniChat.Role.assistant
              ∧ MiniChat.WITTY_MESSAGES.contains
                  (messages.getD (p.1 + 1)
                    ⟨MiniChat.Role.system, "", none⟩).content = true)) := by
  constructor
  · intro m hm hrole
    unfold MiniChat.saveMessagesToStorage at hm
    rcases List.mem_map.1 hm with ⟨p, hp, hpm⟩
    have hw : MiniChat.isWittyMessage messages p.2 p.1 = false := by
      simpa using (List.mem_filter.1 hp).2
    by_contra hc
    simp only [Bool.not_eq_false] at hc
    rw [hpm] at hw
    simp [MiniChat.isWittyMessage, hrole, hc] at hw
    exact hw (by simpa using hc)
  · intro p hp hrole hlt
    have hw : MiniChat.isWittyMessage messages p.2 p.1 = false := by
      simpa using (List.mem_filter.1 hp).2
    have h2 : p.1 < messages.length - 1 := by omega
    intro hcon
    rcases hcon with ⟨hr, hc⟩
    simp [MiniChat.isWittyMessage, hrole, h2, hr, hc] at hw
    simp only [List.getD_eq_getElem?_getD] at hr hc
    exact hw hr (by simpa using hc)

/-- Witness for `save_filters_witty`: in a list holding a user message, a
witty assistant reply and a real assistant reply, the kept real reply is
not witty, and every kept user pair escapes the successor condition. -/
theorem save_filters_witty_witness :
    (⟨MiniChat.Role.assistant, "fine", some 3⟩ : MiniChat.ChatMessage)
      ∈ MiniChat.saveMessagesToStorage
        [⟨MiniChat.Role.user, "hi", some 1⟩,
         ⟨MiniChat.Role.assistant, MiniChat.WITTY_MESSAGES.getD 0 "", some 2⟩,
         ⟨MiniChat.Role.assistant, "fine", some 3⟩]
    ∧ MiniChat.WITTY_MESSAGES.contains "fine" = false :=
  ⟨by decide,
   (save_filters_witty
      [⟨MiniChat.Role.user, "hi", some 1⟩,
       ⟨MiniChat.Role.assistant, MiniChat.WITTY_MESSAGES.getD 0 "", some 2⟩,
       ⟨MiniChat.Role.assistant, "fine", some 3⟩]).1
     ⟨MiniChat.Role.assistant, "fine", some 3⟩ (by decide) rfl⟩
